import Mathlib

/-!
redis-tui: key scanning, key cache and connection-URL resolution.

A shallow embedding of `src/api/redis.go` (`createTLSConfig`, `NewRedisClient`,
`RedisExecute`, `KeysWithLimit`, `RedisKeys`, `RedisAllKeys`, `RedisServerInfo`)
and `src/main.go` (`parseRedisURL`, `main`) together with the properties
established about them.

Conventions.
* A Go `error` is a message; `nil` is `none`.
* A Go `[]string` is a `List String`; the nil slice is `[]`.
* The Redis server behind a client is an explicit state `σ`; every `Scan`
  call takes the state and returns the next one.
* Every function that talks to the server also returns the list of `Scan`
  calls it issued, in order.
-/

namespace RedisTui

/-- A Go `error` value, identified with its message. -/
abbrev GoError := String

/-! ## `api/redis.go`: the client interface -/

/-- What `client.Scan(cursor, match, count).Result()` returns: the page of keys,
the next cursor and the error. -/
structure ScanResult where
  keys : List String
  cursor : Nat
  err : Option GoError
deriving DecidableEq, Repr

/-- The arguments of one `Scan(cursor, match, count)` call. -/
structure ScanCall where
  cursor : Nat
  pattern : String
  count : Int
deriving DecidableEq, Repr

/-- The part of the `RedisClient` interface used by the key scanner: `Scan`, run
against a server in state `σ`. -/
structure RedisClient (σ : Type) where
  Scan : σ → Nat → String → Int → ScanResult × σ

/-- Go `int` arithmetic on a 64-bit platform: wrap into `[-2^63, 2^63)`. -/
def wrapInt64 (i : Int) : Int :=
  (i + 2 ^ 63) % 2 ^ 64 - 2 ^ 63

/-- The outcome of `KeysWithLimit`: the two named results `redisKeys` and `err`,
the server state afterwards and the `Scan` calls issued. -/
structure KeysResult (σ : Type) where
  redisKeys : List String
  err : Option GoError
  st : σ
  calls : List ScanCall

/-- The `for scanCount < maxScanCount || maxScanCount == -1` loop of
`KeysWithLimit`, one iteration per unit of fuel; `none` when the fuel runs out
before the loop ends. -/
def KeysWithLimitLoop {σ : Type} (client : RedisClient σ) (key : String) (maxScanCount : Int) :
    Nat → σ → Nat → Int → List String → List ScanCall → Option (KeysResult σ)
  | 0, _, _, _, _, _ => none
  | fuel + 1, st, cursor, scanCount, redisKeys, calls =>
    if scanCount < maxScanCount ∨ maxScanCount = -1 then
      let scanCount := wrapInt64 (scanCount + 1)
      let r := client.Scan st cursor key 100
      let calls := calls ++ [⟨cursor, key, 100⟩]
      if r.1.err ≠ none then
        some ⟨redisKeys, r.1.err, r.2, calls⟩
      else
        let redisKeys := redisKeys ++ r.1.keys
        if r.1.cursor = 0 then
          some ⟨redisKeys, none, r.2, calls⟩
        else
          KeysWithLimitLoop client key maxScanCount fuel r.2 r.1.cursor scanCount redisKeys calls
    else
      some ⟨redisKeys, none, st, calls⟩

/-- `KeysWithLimit(client, key, maxScanCount)`: the loop started with cursor 0,
`scanCount` 0 and the nil slice. -/
def KeysWithLimit {σ : Type} (fuel : Nat) (client : RedisClient σ) (st : σ) (key : String)
    (maxScanCount : Int) : Option (KeysResult σ) :=
  KeysWithLimitLoop client key maxScanCount fuel st 0 0 [] []

/-- The outcome of `RedisKeys`: the returned pair, the server state and the
`Scan` calls issued. -/
structure RedisKeysResult (σ : Type) where
  keys : List String
  err : Option GoError
  st : σ
  calls : List ScanCall

/-- `RedisKeys(client, pattern)`. -/
def RedisKeys {σ : Type} (fuel : Nat) (client : RedisClient σ) (st : σ) (pattern : String) :
    Option (RedisKeysResult σ) :=
  match KeysWithLimit fuel client st pattern (-1) with
  | none => none
  | some r =>
    if r.err ≠ none then
      some ⟨[], none, r.st, r.calls⟩
    else
      some ⟨r.redisKeys, none, r.st, r.calls⟩

/-- The package-level cache: `redisKeys` and `redisKeysLastUpdate` (a time in
nanoseconds). -/
structure KeyCache where
  redisKeys : List String
  redisKeysLastUpdate : Int
deriving DecidableEq, Repr

/-- The duration `time.Second`, in nanoseconds. -/
def Second : Int := 1000000000

/-- The outcome of `RedisAllKeys`: the returned pair, the cache and server state
afterwards and the `Scan` calls issued. -/
structure AllKeysResult (σ : Type) where
  keys : List String
  err : Option GoError
  cache : KeyCache
  st : σ
  calls : List ScanCall

/-- `RedisAllKeys(client, cache)`. `now₁` is what `time.Now()` returns in the
freshness check, `now₂` what it returns when the timestamp is stored. -/
def RedisAllKeys {σ : Type} (fuel : Nat) (client : RedisClient σ) (st : σ) (kc : KeyCache)
    (now₁ now₂ : Int) (cache : Bool) : Option (AllKeysResult σ) :=
  if cache = true ∧ kc.redisKeysLastUpdate > now₁ + 60 * Second then
    some ⟨kc.redisKeys, none, kc, st, []⟩
  else
    match KeysWithLimit fuel client st "*" 10 with
    | none => none
    | some r =>
      if r.err ≠ none then
        some ⟨[], r.err, kc, r.st, r.calls⟩
      else
        some ⟨r.redisKeys, none, ⟨r.redisKeys, now₂⟩, r.st, r.calls⟩

/-! ### The server's replies along the cursor chain -/

/-- The server state and the cursor before the `i`-th `Scan` call (counted from
0) of a scan of `key` that starts at cursor 0 and always passes on the cursor it
was given back. -/
def chainAt {σ : Type} (client : RedisClient σ) (st : σ) (key : String) : Nat → σ × Nat
  | 0 => (st, 0)
  | i + 1 =>
    let p := chainAt client st key i
    let r := client.Scan p.1 p.2 key 100
    (r.2, r.1.cursor)

/-- The reply to the `i`-th call of the chain. -/
def chainReply {σ : Type} (client : RedisClient σ) (st : σ) (key : String) (i : Nat) : ScanResult :=
  (client.Scan (chainAt client st key i).1 (chainAt client st key i).2 key 100).1

/-- The `i`-th call of the chain. -/
def chainCall {σ : Type} (client : RedisClient σ) (st : σ) (key : String) (i : Nat) : ScanCall :=
  ⟨(chainAt client st key i).2, key, 100⟩

/-- The keys of the first `m` pages of the chain, concatenated in page order. -/
def chainKeys {σ : Type} (client : RedisClient σ) (st : σ) (key : String) (m : Nat) : List String :=
  ((List.range m).map (fun i => (chainReply client st key i).keys)).flatten

/-- The first `m` calls of the chain. -/
def chainCalls {σ : Type} (client : RedisClient σ) (st : σ) (key : String) (m : Nat) : List ScanCall :=
  (List.range m).map (chainCall client st key)

/-- The value of `scanCount` at the start of the `i`-th iteration. -/
def scanCountAt : Nat → Int
  | 0 => 0
  | i + 1 => wrapInt64 (scanCountAt i + 1)

/-- The cursor first returns to 0 on the `n`-th call of the chain (counted from 1). -/
def firstZeroOn {σ : Type} (client : RedisClient σ) (st : σ) (key : String) (n : Nat) : Prop :=
  0 < n ∧ (chainReply client st key (n - 1)).cursor = 0
    ∧ ∀ i, i + 1 < n → (chainReply client st key i).cursor ≠ 0

/-- A scripted server: its state is the list of replies still to give; when the
script is exhausted it answers with an empty last page. -/
def scripted : RedisClient (List ScanResult) where
  Scan := fun st _ _ _ =>
    match st with
    | [] => (⟨[], 0, none⟩, [])
    | r :: rest => (r, rest)

/-- A server that needs three pages for a full scan: cursors 17, 42, 0. -/
def threePages : List ScanResult :=
  [⟨["a", "b"], 17, none⟩, ⟨["c"], 42, none⟩, ⟨["d", "a"], 0, none⟩]

/-- The same server when the transport fails on the second page. -/
def failsOnPageTwo : List ScanResult :=
  [⟨["a", "b"], 17, none⟩, ⟨[], 0, some "i/o timeout"⟩, ⟨["d", "a"], 0, none⟩]

/-- What a caller sees of a `KeysWithLimit` outcome: keys, error and calls. -/
def KeysResult.view {σ : Type} (r : KeysResult σ) : List String × Option GoError × List ScanCall :=
  (r.redisKeys, r.err, r.calls)

/-- What a caller sees of a `RedisKeys` outcome. -/
def RedisKeysResult.view {σ : Type} (r : RedisKeysResult σ) :
    List String × Option GoError × List ScanCall :=
  (r.keys, r.err, r.calls)

/-- What a caller sees of a `RedisAllKeys` outcome, and the cache afterwards. -/
def AllKeysResult.view {σ : Type} (r : AllKeysResult σ) :
    List String × Option GoError × KeyCache × List ScanCall :=
  (r.keys, r.err, r.cache, r.calls)

/-! ## `config/config.go` -/

/-- The struct `config.Config`. -/
structure Config where
  Host : String
  Port : Int
  Password : String
  DB : Int
  Cluster : Bool
  Debug : Bool
  TLS : Bool
  TLSCert : String
  TLSKey : String
  TLSCACert : String
  TLSVerify : Bool
deriving DecidableEq, Repr

/-! ## The Go standard library as used by `parseRedisURL` -/

/-- The two ways `strconv.Atoi` fails: `ErrSyntax` and `ErrRange`. -/
inductive NumError where
  | badSyntax
  | outOfRange
deriving DecidableEq, Repr

/-- The byte is one of `'0'` .. `'9'`. -/
def isDecimalDigit (c : Char) : Bool :=
  decide (48 ≤ c.toNat) && decide (c.toNat ≤ 57)

/-- The value of a string of decimal digits. -/
def digitsValue (ds : List Char) : Nat :=
  ds.foldl (fun n c => n * 10 + (c.toNat - 48)) 0

/-- The part of `strconv.Atoi` after the sign: one or more decimal digits, with a
value, negated when `neg`, in `[-2^63, 2^63)`. -/
def atoiDigits (neg : Bool) (ds : List Char) : Except NumError Int :=
  if ds.isEmpty || !ds.all isDecimalDigit then .error .badSyntax
  else
    let v : Int := if neg then -(digitsValue ds : Int) else (digitsValue ds : Int)
    if -2 ^ 63 ≤ v ∧ v < 2 ^ 63 then .ok v else .error .outOfRange

/-- `strconv.Atoi` on a 64-bit platform: an optional sign `+` or `-`, then one or
more decimal digits, with a value in `[-2^63, 2^63)`. -/
def Atoi (s : String) : Except NumError Int :=
  match s.data with
  | [] => .error .badSyntax
  | c :: rest =>
    if c = '-' then atoiDigits true rest
    else if c = '+' then atoiDigits false rest
    else atoiDigits false (c :: rest)

/-- The text `s` is a decimal integer with value `n`: one or more decimal digits,
with nothing else but at most one sign `+` or `-` in front. -/
def isSignedDecimal (s : String) (n : Int) : Prop :=
  ∃ ds : List Char, ds ≠ [] ∧ ds.all isDecimalDigit = true
    ∧ ((s.data = ds ∧ n = (digitsValue ds : Int))
      ∨ (s.data = '+' :: ds ∧ n = (digitsValue ds : Int))
      ∨ (s.data = '-' :: ds ∧ n = -(digitsValue ds : Int)))

/-- `strings.TrimPrefix(s, "/")`. -/
def trimSlash (s : String) : String :=
  match s.data with
  | '/' :: rest => String.mk rest
  | _ => s

/-- The type `url.Userinfo`. -/
structure Userinfo where
  username : String
  password : String
  passwordSet : Bool
deriving DecidableEq, Repr

/-- The type `url.Values`, a map from a key to its values, as an association list. -/
abbrev Values := List (String × List String)

/-- `url.Values.Get`: the first value of the key, `""` when there is none. -/
def Values.Get (v : Values) (key : String) : String :=
  match v.lookup key with
  | some (x :: _) => x
  | _ => ""

/-- What `parseRedisURL` reads of a `*url.URL`: the fields `Scheme`, `User`, `Host`
and `Path`, and `Query`, the value of the method `Query()`. -/
structure URL where
  Scheme : String
  User : Option Userinfo
  Host : String
  Path : String
  Query : Values
deriving DecidableEq, Repr

/-- `(*Userinfo).Password`, which answers `("", false)` on a nil receiver. -/
def userPassword (u : Option Userinfo) : String × Bool :=
  match u with
  | none => ("", false)
  | some i => (i.password, i.passwordSet)

/-- The text before and after the last `:` of a host, when there is one. -/
def splitLastColon : List Char → Option (List Char × List Char)
  | [] => none
  | c :: cs =>
    match splitLastColon cs with
    | some (a, b) => some (c :: a, b)
    | none => if c = ':' then some ([], cs) else none

/-- `net/url.splitHostPort`: the port is split off at the last colon when what
follows it is all digits, then the square brackets around the host are removed. -/
def splitHostPort (hostPort : String) : String × String :=
  let hp : List Char × List Char :=
    match splitLastColon hostPort.data with
    | some (a, b) => if b.all isDecimalDigit then (a, b) else (hostPort.data, [])
    | none => (hostPort.data, [])
  let host : List Char :=
    match hp.1 with
    | '[' :: rest => if rest.getLast? = some ']' then rest.dropLast else hp.1
    | _ => hp.1
  (String.mk host, String.mk hp.2)

/-- `(*URL).Hostname`. -/
def URL.Hostname (u : URL) : String := (splitHostPort u.Host).1

/-- `(*URL).Port`. -/
def URL.Port (u : URL) : String := (splitHostPort u.Host).2

/-! ## `main.go`: `parseRedisURL` -/

/-- The part of `parseRedisURL` after the port: password, database and query
parameters. -/
def parseRedisURLTail (u : URL) (conf : Config) : Config × Option GoError :=
  let conf := if (userPassword u.User).2 = true then
    { conf with Password := (userPassword u.User).1 } else conf
  if u.Path ≠ "" ∧ u.Path ≠ "/" then
    match Atoi (trimSlash u.Path) with
    | .error _ => (conf, some ("invalid database number: " ++ trimSlash u.Path))
    | .ok db =>
      let conf := { conf with DB := db }
      if u.Query.Get "cluster" = "true" then ({ conf with Cluster := true }, none)
      else (conf, none)
  else
    if u.Query.Get "cluster" = "true" then ({ conf with Cluster := true }, none)
    else (conf, none)

/-- The part of `parseRedisURL` after `url.Parse` has succeeded, on the parsed
URL `u`. The configuration behind the pointer `conf` is returned as it stands
when the function returns, with the error. -/
def parseRedisURLParsed (u : URL) (conf : Config) : Config × Option GoError :=
  let switched : Option Config :=
    if u.Scheme = "redis" then some { conf with TLS := false }
    else if u.Scheme = "rediss" then some { conf with TLS := true }
    else none
  match switched with
  | none => (conf, some ("invalid scheme: " ++ u.Scheme))
  | some conf =>
    let conf := if u.Hostname ≠ "" then { conf with Host := u.Hostname } else conf
    if u.Port ≠ "" then
      match Atoi u.Port with
      | .error _ => (conf, some ("invalid port: " ++ u.Port))
      | .ok port => parseRedisURLTail u { conf with Port := port }
    else
      parseRedisURLTail u conf

/-- `parseRedisURL(redisURL, conf)`, with `url.Parse` as the parameter `urlParse`. -/
def parseRedisURL (urlParse : String → Except GoError URL) (redisURL : String) (conf : Config) :
    Config × Option GoError :=
  match urlParse redisURL with
  | .error err => (conf, some err)
  | .ok u => parseRedisURLParsed u conf

/-- The parsed form of `redis://host:1234/7?cluster=true`. -/
def exampleURL : URL :=
  ⟨"redis", none, "host:1234", "/7", [("cluster", ["true"])]⟩

/-- The URL `u` with the user name replaced by `name`. -/
def withUsername (u : URL) (name : String) : URL :=
  { u with User := u.User.map (fun i => { i with username := name }) }

/-- The configuration `main` starts from. -/
def defaultConf : Config :=
  { Host := "127.0.0.1", Port := 6379, Password := "", DB := 0, Cluster := false,
    Debug := false, TLS := false, TLSCert := "", TLSKey := "", TLSCACert := "",
    TLSVerify := true }

/-- What Go's `url.Parse` returns for the URLs used as examples in this file. The
table is not a model of `url.Parse` beyond these strings: every other string is
answered with an error. -/
def urlParseExamples (s : String) : Except GoError URL :=
  if s = "redis://host:1234/7?cluster=true" then
    .ok exampleURL
  else if s = "rediss://cache.example.com/abc" then
    .ok ⟨"rediss", none, "cache.example.com", "/abc", []⟩
  else if s = "redis://cache.example.com/-5" then
    .ok ⟨"redis", none, "cache.example.com", "/-5", []⟩
  else if s = "rediss://admin:s3cret@[::1]:6380" then
    .ok ⟨"rediss", some ⟨"admin", "s3cret", true⟩, "[::1]:6380", "", []⟩
  else if s = "http://cache.example.com" then
    .ok ⟨"http", none, "cache.example.com", "", []⟩
  else
    .error ("parse " ++ s ++ ": not among the examples")

/-! ## The Go `strings` and `fmt` functions used by `api/redis.go` -/

/-- Put `c` in front of the first piece. -/
def consFirst (c : Char) : List (List Char) → List (List Char)
  | [] => [[c]]
  | p :: ps => (c :: p) :: ps

/-- The pieces of a text between the occurrences of the byte `sep`. -/
def splitOnChar (sep : Char) : List Char → List (List Char)
  | [] => [[]]
  | c :: cs => if c = sep then [] :: splitOnChar sep cs else consFirst c (splitOnChar sep cs)

/-- `strings.Split(s, sep)` for a separator of one byte: one piece more than there
are separators, `[""]` for the empty string. -/
def stringsSplit (s : String) (sep : Char) : List String :=
  (splitOnChar sep s.data).map String.mk

/-- The text before and after the first `sep`, when there is one. -/
def cutFirst (sep : Char) : List Char → Option (List Char × List Char)
  | [] => none
  | c :: cs =>
    if c = sep then some ([], cs)
    else
      match cutFirst sep cs with
      | some (a, b) => some (c :: a, b)
      | none => none

/-- `strings.SplitN(s, sep, 2)` for a separator of one byte: `[s]` when `s` has no
separator, else the text before the first separator and the text after it. -/
def stringsSplitN2 (s : String) (sep : Char) : List String :=
  match cutFirst sep s.data with
  | none => [s]
  | some (a, b) => [String.mk a, String.mk b]

/-- `strings.HasPrefix(s, "#")`. -/
def hasHashPrefix (s : String) : Bool :=
  match s.data with
  | '#' :: _ => true
  | _ => false

/-- The pieces joined again with `sep` between them. -/
def joinWith (sep : Char) : List (List Char) → List Char
  | [] => []
  | [p] => p
  | p :: q :: ps => p ++ sep :: joinWith sep (q :: ps)

/-- The decimal digits of a natural number, most significant first, with `fuel`
bounding the number of digits. -/
def natDigits : Nat → Nat → List Char
  | 0, _ => []
  | fuel + 1, n =>
    if n < 10 then [Char.ofNat (48 + n)]
    else natDigits fuel (n / 10) ++ [Char.ofNat (48 + n % 10)]

/-- The verb `%d` of `fmt` on an `int`. -/
def fmtInt (i : Int) : String :=
  if i < 0 then String.mk ('-' :: natDigits (i.natAbs + 1) i.natAbs)
  else String.mk (natDigits (i.natAbs + 1) i.natAbs)

/-! ## `api/redis.go`: `RedisExecute` and `RedisServerInfo` -/

/-- `RedisExecute(client, command)`: `Do` stands for `client.Do(args...).Result()`,
whose value is returned as it is. -/
def RedisExecute {ρ : Type} (Do : List String → ρ) (command : String) : ρ :=
  Do (stringsSplit command ' ')

/-- One iteration of the loop over the lines of the INFO text; `kvpairs` is the map,
with the latest assignment first. -/
def infoStep (kvpairs : List (String × String)) (kv : String) : List (String × String) :=
  if hasHashPrefix kv = true ∨ kv = "" then kvpairs
  else
    match stringsSplitN2 kv ':' with
    | [k, v] => (k, v) :: kvpairs
    | _ => kvpairs

/-- The map `kvpairs` after the loop over the lines of `res`. -/
def infoPairs (res : String) : List (String × String) :=
  (stringsSplit res '\n').foldl infoStep []

/-- The value `m[key]` of a Go map of strings: `""` for a key that is absent. -/
def mapGet (m : List (String × String)) (key : String) : String :=
  (m.lookup key).getD ""

/-- The variable `keySpace` of `RedisServerInfo`. -/
def infoKeySpace (conf : Config) (kvpairs : List (String × String)) : String :=
  match kvpairs.lookup ("db" ++ fmtInt conf.DB) with
  | some ks => ks
  | none => "-"

/-- `RedisServerInfo(conf, client)`: `info` is what `client.Info().Result()` returns. -/
def RedisServerInfo (conf : Config) (info : String × Option GoError) : String × Option GoError :=
  if info.2 ≠ none then ("", info.2)
  else
    let kvpairs := infoPairs info.1
    (" RedisVersion: " ++ mapGet kvpairs "redis_version"
      ++ "    Memory: " ++ mapGet kvpairs "used_memory_human"
      ++ "    Server: " ++ conf.Host ++ ":" ++ fmtInt conf.Port ++ "/" ++ fmtInt conf.DB
      ++ "\n KeySpace: " ++ infoKeySpace conf kvpairs, none)

/-- The line `l` of the INFO text is kept as the pair `(k, v)`: it is not empty,
does not start with `#`, and `k` and `v` are what stands before and after its first
colon. -/
def retainedAs (l k v : String) : Prop :=
  l ≠ "" ∧ hasHashPrefix l = false ∧ l.data = k.data ++ ':' :: v.data ∧ ':' ∉ k.data

/-! ## `api/redis.go`: `createTLSConfig` and `NewRedisClient` -/

/-- A loaded certificate, as `tls.Certificate` or as a member of an `x509.CertPool`. -/
abbrev Certificate := String

/-- The fields of `tls.Config` that `createTLSConfig` sets. -/
structure TLSConfig where
  InsecureSkipVerify : Bool
  Certificates : List Certificate
  RootCAs : Option (List Certificate)
deriving DecidableEq, Repr

/-- The file system and the certificate loaders behind `createTLSConfig`:
`tls.LoadX509KeyPair`, `ioutil.ReadFile`, and `AppendCertsFromPEM` on a new pool,
given as the certificates it appends (it answers `false` when there is none). -/
structure CertStore where
  LoadX509KeyPair : String → String → Except GoError Certificate
  ReadFile : String → Except GoError String
  AppendCertsFromPEM : String → List Certificate

/-- `createTLSConfig(conf)`. -/
def createTLSConfig (fs : CertStore) (conf : Config) : Except GoError TLSConfig :=
  let tlsConfig : TLSConfig := ⟨!conf.TLSVerify, [], none⟩
  let afterCert : Except GoError TLSConfig :=
    if conf.TLSCert ≠ "" ∧ conf.TLSKey ≠ "" then
      match fs.LoadX509KeyPair conf.TLSCert conf.TLSKey with
      | .error err => .error ("failed to load client certificate: " ++ err)
      | .ok cert => .ok { tlsConfig with Certificates := [cert] }
    else .ok tlsConfig
  match afterCert with
  | .error err => .error err
  | .ok tlsConfig =>
    if conf.TLSCACert ≠ "" then
      match fs.ReadFile conf.TLSCACert with
      | .error err => .error ("failed to read CA certificate: " ++ err)
      | .ok caCert =>
        if (fs.AppendCertsFromPEM caCert).isEmpty then
          .error "failed to parse CA certificate"
        else .ok { tlsConfig with RootCAs := some (fs.AppendCertsFromPEM caCert) }
    else .ok tlsConfig

/-- The colours of `tcell` used for diagnostics. -/
inductive Color where
  | ColorRed
  | ColorOrange
deriving DecidableEq, Repr

/-- The struct `core.OutputMessage`. -/
structure OutputMessage where
  Color : Color
  Message : String
deriving DecidableEq, Repr

/-- The fields of `redis.ClusterOptions` that `NewRedisClient` sets. -/
structure ClusterOptions where
  Addrs : List String
  Password : String
  TLSConfig : Option TLSConfig
deriving DecidableEq, Repr

/-- The fields of `redis.Options` that `NewRedisClient` sets; the timeouts are in
nanoseconds. -/
structure Options where
  Addr : String
  DB : Int
  Password : String
  WriteTimeout : Int
  ReadTimeout : Int
  TLSConfig : Option TLSConfig
deriving DecidableEq, Repr

/-- The client `NewRedisClient` returns: a cluster client, or a single-server client
with or without the tracing function installed by `WrapProcess`. -/
inductive Client where
  | cluster (options : ClusterOptions)
  | single (options : Options) (wrapped : Bool)
deriving DecidableEq, Repr

/-- The first part of `NewRedisClient`: the TLS configuration used, and the
messages sent to `outputChan`. -/
def newClientTLS (fs : CertStore) (conf : Config) : Option TLSConfig × List OutputMessage :=
  if conf.TLS = true then
    match createTLSConfig fs conf with
    | .error err => (none, [⟨.ColorRed, "TLS configuration error: " ++ err⟩])
    | .ok tlsConfig => (some tlsConfig, [])
  else (none, [])

/-- `NewRedisClient(conf, outputChan)`: the client, and the messages sent to
`outputChan` while it is built. -/
def NewRedisClient (fs : CertStore) (conf : Config) : Client × List OutputMessage :=
  let t := newClientTLS fs conf
  if conf.Cluster = true then
    (.cluster ⟨[conf.Host ++ ":" ++ fmtInt conf.Port], conf.Password, t.1⟩, t.2)
  else
    (.single ⟨conf.Host ++ ":" ++ fmtInt conf.Port, conf.DB, conf.Password, 3 * Second,
      2 * Second, t.1⟩ conf.Debug, t.2)

/-- The TLS configuration of a client. -/
def Client.tlsConfig : Client → Option TLSConfig
  | .cluster o => o.TLSConfig
  | .single o _ => o.TLSConfig

/-- The address of a client: the seed address of a cluster client. -/
def Client.addrs : Client → List String
  | .cluster o => o.Addrs
  | .single o _ => [o.Addr]

/-- The password of a client. -/
def Client.password : Client → String
  | .cluster o => o.Password
  | .single o _ => o.Password

/-- The db index of a client; a cluster client has none. -/
def Client.db : Client → Option Int
  | .cluster _ => none
  | .single o _ => some o.DB

/-- The execution of one command by a client: `oldProcess` is the normal execution
and `cmd` the textual form of the command. The result is the messages sent to
`outputChan` and the error returned. -/
def Client.Process (c : Client) (oldProcess : String → Option GoError) (cmd : String) :
    List OutputMessage × Option GoError :=
  match c with
  | .single _ true => ([⟨.ColorOrange, "redis: <" ++ cmd ++ ">"⟩], oldProcess cmd)
  | _ => ([], oldProcess cmd)

/-- A certificate store in which every file is missing. -/
def noFiles : CertStore where
  LoadX509KeyPair := fun cert _ => .error ("open " ++ cert ++ ": no such file or directory")
  ReadFile := fun name => .error ("open " ++ name ++ ": no such file or directory")
  AppendCertsFromPEM := fun _ => []

/-! ## `main.go`: `main` -/

/-- The command-line flags after `flag.Parse()`: for each flag bound to a field of
the configuration, the value the user supplied, if any; and the values of `-v`
and `-url`. -/
structure Flags where
  h : Option String
  p : Option Int
  a : Option String
  n : Option Int
  c : Option Bool
  vvv : Option Bool
  tls : Option Bool
  tlsCert : Option String
  tlsKey : Option String
  tlsCACert : Option String
  tlsVerify : Option Bool
  v : Bool
  url : String
deriving DecidableEq, Repr

/-- The effect of `flag.Parse()` on the configuration: every flag was registered
with the current value of its field as default, so a field changes only when its
flag is supplied. -/
def applyFlags (conf : Config) (f : Flags) : Config :=
  { Host := f.h.getD conf.Host
    Port := f.p.getD conf.Port
    Password := f.a.getD conf.Password
    DB := f.n.getD conf.DB
    Cluster := f.c.getD conf.Cluster
    Debug := f.vvv.getD conf.Debug
    TLS := f.tls.getD conf.TLS
    TLSCert := f.tlsCert.getD conf.TLSCert
    TLSKey := f.tlsKey.getD conf.TLSKey
    TLSCACert := f.tlsCACert.getD conf.TLSCACert
    TLSVerify := f.tlsVerify.getD conf.TLSVerify }

/-- The part of `main` that resolves the configuration, up to the second
`parseRedisURL`: `env` is the value of `REDIS_URL`. The result is the configuration
handed to `NewRedisClient`, or the message written to standard error before
`os.Exit(1)`. -/
def main (urlParse : String → Except GoError URL) (env : String) (f : Flags) :
    Except String Config :=
  let fromEnv : Config × Option GoError :=
    if env ≠ "" then parseRedisURL urlParse env defaultConf else (defaultConf, none)
  match fromEnv.2 with
  | some err => .error ("Error parsing REDIS_URL: " ++ err ++ "\n")
  | none =>
    let conf := applyFlags fromEnv.1 f
    let fromFlag : Config × Option GoError :=
      if f.url ≠ "" then parseRedisURL urlParse f.url conf else (conf, none)
    match fromFlag.2 with
    | some err => .error ("Error parsing Redis URL: " ++ err ++ "\n")
    | none => .ok fromFlag.1

/-- No flag supplied. -/
def noFlags : Flags :=
  ⟨none, none, none, none, none, none, none, none, none, none, none, false, ""⟩

/-! ### Configuration precedence, as the specification states it -/

/-- The host name a URL carries, if it carries one. -/
def urlHost (u : URL) : Option String :=
  if u.Hostname ≠ "" then some u.Hostname else none

/-- The port a URL carries, if it carries one that `strconv.Atoi` accepts. -/
def urlPort (u : URL) : Option Int :=
  if u.Port ≠ "" then (Atoi u.Port).toOption else none

/-- The password a URL carries, if its user-info has one. -/
def urlPassword (u : URL) : Option String :=
  if (userPassword u.User).2 = true then some (userPassword u.User).1 else none

/-- The db index a URL carries, if its path is neither empty nor a lone slash and
`strconv.Atoi` accepts it. -/
def urlDB (u : URL) : Option Int :=
  if u.Path ≠ "" ∧ u.Path ≠ "/" then (Atoi (trimSlash u.Path)).toOption else none

/-- The TLS setting a URL carries: every URL has one, given by its scheme. -/
def urlTLS (u : URL) : Option Bool :=
  some (decide (u.Scheme = "rediss"))

/-- The cluster setting a URL carries: `true` when the query has `cluster=true`,
nothing otherwise. -/
def urlCluster (u : URL) : Option Bool :=
  if u.Query.Get "cluster" = "true" then some true else none

/-- The value of one field under the precedence
`defaults < environment URL < flag < explicit URL`: the last source in this order
that has a value for the field decides. -/
def precedence {α : Type} (dflt : α) (env flag explicit : Option α) : α :=
  explicit.getD (flag.getD (env.getD dflt))

/-- The configuration the precedence rule of the specification gives, field by
field, from the parsed environment URL `ue` (`none` when `REDIS_URL` is empty), the
flags, and the parsed URL `uo` of the flag `-url` (`none` when it is empty). The
five fields no URL carries come from their flag or their default. -/
def resolvedBySpec (ue uo : Option URL) (f : Flags) : Config :=
  { Host := precedence "127.0.0.1" (ue.bind urlHost) f.h (uo.bind urlHost)
    Port := precedence 6379 (ue.bind urlPort) f.p (uo.bind urlPort)
    Password := precedence "" (ue.bind urlPassword) f.a (uo.bind urlPassword)
    DB := precedence 0 (ue.bind urlDB) f.n (uo.bind urlDB)
    Cluster := precedence false (ue.bind urlCluster) f.c (uo.bind urlCluster)
    Debug := f.vvv.getD false
    TLS := precedence false (ue.bind urlTLS) f.tls (uo.bind urlTLS)
    TLSCert := f.tlsCert.getD ""
    TLSKey := f.tlsKey.getD ""
    TLSCACert := f.tlsCACert.getD ""
    TLSVerify := f.tlsVerify.getD true }

/-- The configuration `c` with every field the URL `u` carries replaced by the
URL's value. -/
def overlayURL (u : URL) (c : Config) : Config :=
  { Host := (urlHost u).getD c.Host
    Port := (urlPort u).getD c.Port
    Password := (urlPassword u).getD c.Password
    DB := (urlDB u).getD c.DB
    Cluster := (urlCluster u).getD c.Cluster
    Debug := c.Debug
    TLS := decide (u.Scheme = "rediss")
    TLSCert := c.TLSCert
    TLSKey := c.TLSKey
    TLSCACert := c.TLSCACert
    TLSVerify := c.TLSVerify }

/-- The parsed form of `rediss://admin:s3cret@[::1]:6380`. -/
def secureURL : URL :=
  ⟨"rediss", some ⟨"admin", "s3cret", true⟩, "[::1]:6380", "", []⟩

/-- The flags `-h flaghost -p 7000 -n 3 -url rediss://admin:s3cret@[::1]:6380`. -/
def exampleFlags : Flags :=
  { noFlags with h := some "flaghost", p := some 7000, n := some 3, url := "rediss://admin:s3cret@[::1]:6380" }

/-- The zero value of `time.Time`, January 1 of year 1, in nanoseconds from the
Unix epoch. -/
def zeroTime : Int := -62135596800 * Second

/-- The cache when the program starts. -/
def initialCache : KeyCache := ⟨[], zeroTime⟩

/-! ## The scan loop along the cursor chain -/

theorem wrapInt64_of_range (i : Int) (h₁ : -2 ^ 63 ≤ i) (h₂ : i < 2 ^ 63) : wrapInt64 i = i := by
  unfold wrapInt64
  omega

theorem scanCountAt_eq (i : Nat) (h : (i : Int) < 2 ^ 63) : scanCountAt i = i := by
  induction i with
  | zero => rfl
  | succ n ih =>
    have hn : scanCountAt n = n := ih (by push_cast at h; omega)
    simp only [scanCountAt, hn]
    rw [wrapInt64_of_range] <;> push_cast at h ⊢ <;> omega

/-- One iteration that gets a page and a non-zero cursor moves the loop one step
along the chain. -/
theorem loop_step {σ : Type} (client : RedisClient σ) (st : σ) (key : String) (k : Int)
    (fuel j : Nat) (acc : List String) (cs : List ScanCall)
    (hg : scanCountAt j < k ∨ k = -1)
    (herr : (chainReply client st key j).err = none)
    (hcur : (chainReply client st key j).cursor ≠ 0) :
    KeysWithLimitLoop client key k (fuel + 1) (chainAt client st key j).1
        (chainAt client st key j).2 (scanCountAt j) acc cs
      = KeysWithLimitLoop client key k fuel (chainAt client st key (j + 1)).1
          (chainAt client st key (j + 1)).2 (scanCountAt (j + 1))
          (acc ++ (chainReply client st key j).keys) (cs ++ [chainCall client st key j]) := by
  unfold chainReply at herr hcur
  simp only [KeysWithLimitLoop, hg, herr, hcur, if_true, if_false, ne_eq, not_true_eq_false,
    chainAt, scanCountAt, chainReply, chainCall]

/-- Any number `d` of such iterations, from position `j` of the chain on. -/
theorem loop_run {σ : Type} (client : RedisClient σ) (st : σ) (key : String) (k : Int) (d : Nat) :
    ∀ (fuel j : Nat) (acc : List String) (cs : List ScanCall),
      (∀ i, j ≤ i → i < j + d →
        (scanCountAt i < k ∨ k = -1) ∧ (chainReply client st key i).err = none
          ∧ (chainReply client st key i).cursor ≠ 0) →
      KeysWithLimitLoop client key k (fuel + d) (chainAt client st key j).1
          (chainAt client st key j).2 (scanCountAt j) acc cs
        = KeysWithLimitLoop client key k fuel (chainAt client st key (j + d)).1
            (chainAt client st key (j + d)).2 (scanCountAt (j + d))
            (acc ++ ((List.range' j d).map (fun i => (chainReply client st key i).keys)).flatten)
            (cs ++ (List.range' j d).map (chainCall client st key)) := by
  induction d with
  | zero => intro fuel j acc cs _; simp
  | succ d ih =>
    intro fuel j acc cs h
    obtain ⟨hg, herr, hcur⟩ := h j (Nat.le_refl j) (by omega)
    have hrest : ∀ i, j + 1 ≤ i → i < j + 1 + d →
        (scanCountAt i < k ∨ k = -1) ∧ (chainReply client st key i).err = none
          ∧ (chainReply client st key i).cursor ≠ 0 :=
      fun i h₁ h₂ => h i (by omega) (by omega)
    have hfuel : fuel + (d + 1) = (fuel + d) + 1 := by omega
    rw [hfuel, loop_step client st key k (fuel + d) j acc cs hg herr hcur,
      ih fuel (j + 1) _ _ hrest]
    have hj : j + 1 + d = j + (d + 1) := by omega
    simp only [hj, List.range'_succ, List.map_cons, List.flatten_cons, List.append_assoc,
      List.singleton_append]

/-- The last iteration when the page comes with cursor 0. -/
theorem loop_last_zero {σ : Type} (client : RedisClient σ) (st : σ) (key : String) (k : Int)
    (fuel j : Nat) (acc : List String) (cs : List ScanCall)
    (hg : scanCountAt j < k ∨ k = -1)
    (herr : (chainReply client st key j).err = none)
    (hcur : (chainReply client st key j).cursor = 0) :
    KeysWithLimitLoop client key k (fuel + 1) (chainAt client st key j).1
        (chainAt client st key j).2 (scanCountAt j) acc cs
      = some ⟨acc ++ (chainReply client st key j).keys, none, (chainAt client st key (j + 1)).1,
          cs ++ [chainCall client st key j]⟩ := by
  unfold chainReply at herr hcur
  simp only [KeysWithLimitLoop, hg, herr, hcur, if_true, ne_eq, not_true_eq_false, if_false,
    chainAt, chainReply, chainCall]

/-- The last iteration when the `Scan` call fails: the named results are returned
as they stand. -/
theorem loop_last_err {σ : Type} (client : RedisClient σ) (st : σ) (key : String) (k : Int)
    (fuel j : Nat) (acc : List String) (cs : List ScanCall)
    (hg : scanCountAt j < k ∨ k = -1)
    (herr : (chainReply client st key j).err ≠ none) :
    KeysWithLimitLoop client key k (fuel + 1) (chainAt client st key j).1
        (chainAt client st key j).2 (scanCountAt j) acc cs
      = some ⟨acc, (chainReply client st key j).err, (chainAt client st key (j + 1)).1,
          cs ++ [chainCall client st key j]⟩ := by
  unfold chainReply at herr
  simp only [KeysWithLimitLoop, hg, herr, if_true, ne_eq, not_false_eq_true,
    chainAt, chainReply, chainCall]

/-- The loop ends without a call when the guard fails. -/
theorem loop_guard_false {σ : Type} (client : RedisClient σ) (key : String) (k : Int)
    (fuel : Nat) (s : σ) (cursor : Nat) (sc : Int) (acc : List String) (cs : List ScanCall)
    (hg : ¬ (sc < k ∨ k = -1)) :
    KeysWithLimitLoop client key k (fuel + 1) s cursor sc acc cs = some ⟨acc, none, s, cs⟩ := by
  simp only [KeysWithLimitLoop, hg, if_false]

theorem chainKeys_succ {σ : Type} (client : RedisClient σ) (st : σ) (key : String) (m : Nat) :
    chainKeys client st key (m + 1)
      = chainKeys client st key m ++ (chainReply client st key m).keys := by
  simp [chainKeys, List.range_succ]

theorem chainCalls_succ {σ : Type} (client : RedisClient σ) (st : σ) (key : String) (m : Nat) :
    chainCalls client st key (m + 1)
      = chainCalls client st key m ++ [chainCall client st key m] := by
  simp [chainCalls, List.range_succ]

/-- From the start, `m` iterations that each get a page and a non-zero cursor. -/
theorem loop_prefix {σ : Type} (client : RedisClient σ) (st : σ) (key : String) (k : Int)
    (fuel m : Nat)
    (h : ∀ i, i < m → (scanCountAt i < k ∨ k = -1) ∧ (chainReply client st key i).err = none
          ∧ (chainReply client st key i).cursor ≠ 0) :
    KeysWithLimit (fuel + m) client st key k
      = KeysWithLimitLoop client key k fuel (chainAt client st key m).1
          (chainAt client st key m).2 (scanCountAt m)
          (chainKeys client st key m) (chainCalls client st key m) := by
  have h0 := loop_run client st key k m fuel 0 [] []
    (fun i _ hi => h i (by omega))
  simp only [Nat.zero_add, List.nil_append] at h0
  unfold KeysWithLimit chainKeys chainCalls
  rw [List.range_eq_range']
  exact h0

/-! ## `KeysWithLimit` -/

/-- C1 (as stated, refuted): with a failure on page 2 of 3 `KeysWithLimit` stops
after the second call and returns the error, but together with page 1's keys
`["a", "b"]`, not with an empty key list. -/
theorem C1_partial_keys_returned_with_error :
    (KeysWithLimit 3 scripted failsOnPageTwo "*" (-1)).map KeysResult.view
      = some (["a", "b"], some "i/o timeout", [⟨0, "*", 100⟩, ⟨17, "*", 100⟩]) := by
  decide

/-- The guard of the loop holds at iteration `i` when the limit is `-1` or larger
than `i`. -/
theorem guard_of_limit (k : Int) (hk : k < 2 ^ 63) (j i : Nat) (hi : i ≤ j)
    (hg : k = -1 ∨ (j : Int) < k) : scanCountAt i < k ∨ k = -1 := by
  rcases hg with h | h
  · exact Or.inr h
  · left
    rw [scanCountAt_eq i (by omega)]
    omega

/-- C1 (amended): if the calls before the `j`-th one (counted from 0) succeed with a
non-zero cursor, the limit allows the `j`-th call, and that call fails, then
`KeysWithLimit` returns: it issues exactly the `j + 1` calls of the chain, none
after the failing one, and its results are the error of the failing call together
with the keys of the `j` pages accumulated before the failure. -/
theorem C1_scan_failure_stops_and_returns_error {σ : Type} (client : RedisClient σ) (st : σ)
    (pattern : String) (maxPages : Int) (j fuel : Nat)
    (hmax : maxPages < 2 ^ 63)
    (hallowed : maxPages = -1 ∨ (j : Int) < maxPages)
    (hbefore : ∀ i, i < j → (chainReply client st pattern i).err = none
      ∧ (chainReply client st pattern i).cursor ≠ 0)
    (hfail : (chainReply client st pattern j).err ≠ none)
    (hfuel : j + 1 ≤ fuel) :
    ∃ r, KeysWithLimit fuel client st pattern maxPages = some r
      ∧ r.err = (chainReply client st pattern j).err
      ∧ r.err ≠ none
      ∧ r.calls = chainCalls client st pattern (j + 1)
      ∧ r.calls.length = j + 1
      ∧ r.redisKeys = chainKeys client st pattern j := by
  obtain ⟨f, rfl⟩ : ∃ f, fuel = (f + 1) + j := ⟨fuel - (j + 1), by omega⟩
  have hpre := loop_prefix client st pattern maxPages (f + 1) j
    (fun i hi => ⟨guard_of_limit maxPages hmax j i (by omega) hallowed,
      (hbefore i hi).1, (hbefore i hi).2⟩)
  have hlast := loop_last_err client st pattern maxPages f j (chainKeys client st pattern j)
    (chainCalls client st pattern j)
    (guard_of_limit maxPages hmax j j (Nat.le_refl j) hallowed) hfail
  refine ⟨_, hpre.trans hlast, rfl, hfail, ?_, ?_, rfl⟩
  · exact (chainCalls_succ client st pattern j).symm
  · simp [chainCalls]

/-- C1 (amended), on the scripted server that fails on page 2 of 3. -/
theorem C1_scan_failure_stops_and_returns_error_witness :
    ∃ r, KeysWithLimit 3 scripted failsOnPageTwo "*" (-1) = some r
      ∧ r.err = (chainReply scripted failsOnPageTwo "*" 1).err
      ∧ r.err ≠ none
      ∧ r.calls = chainCalls scripted failsOnPageTwo "*" (1 + 1)
      ∧ r.calls.length = 1 + 1
      ∧ r.redisKeys = chainKeys scripted failsOnPageTwo "*" 1 :=
  C1_scan_failure_stops_and_returns_error scripted failsOnPageTwo "*" (-1) 1 3
    (by decide) (Or.inl rfl)
    (fun i hi => by
      have h0 : i = 0 := by omega
      subst h0
      decide)
    (by decide) (by decide)

/-- The cursor of the `i`-th call of the chain: 0 for the first call, and for each
later call the cursor the previous call returned. -/
theorem chainCall_eq {σ : Type} (client : RedisClient σ) (st : σ) (key : String) (i : Nat) :
    chainCall client st key i
      = ⟨match i with
          | 0 => 0
          | i + 1 => (chainReply client st key i).cursor, key, 100⟩ := by
  cases i <;> rfl

/-- C2: if all `Scan` calls succeed and the cursor first returns to 0 on the `n`-th
call (`n ≥ 1`), then `KeysWithLimit(client, pattern, -1)` returns after exactly `n`
calls: the first with cursor 0, each later one with the cursor the previous call
returned, all with the given pattern and page size 100; the error is nil and the
keys are the `n` pages concatenated in page order, duplicates kept. -/
theorem C2_unbounded_scan_concatenates_all_pages {σ : Type} (client : RedisClient σ) (st : σ)
    (pattern : String) (n fuel : Nat)
    (hok : ∀ i, i < n → (chainReply client st pattern i).err = none)
    (hn : firstZeroOn client st pattern n)
    (hfuel : n ≤ fuel) :
    ∃ r, KeysWithLimit fuel client st pattern (-1) = some r
      ∧ r.err = none
      ∧ r.calls.length = n
      ∧ r.calls = (List.range n).map (fun i =>
          (⟨match i with
            | 0 => 0
            | i + 1 => (chainReply client st pattern i).cursor, pattern, 100⟩ : ScanCall))
      ∧ r.redisKeys
          = ((List.range n).map (fun i => (chainReply client st pattern i).keys)).flatten := by
  obtain ⟨hpos, hzero, hnz⟩ := hn
  obtain ⟨m, rfl⟩ : ∃ m, n = m + 1 := ⟨n - 1, by omega⟩
  obtain ⟨f, rfl⟩ : ∃ f, fuel = (f + 1) + m := ⟨fuel - (m + 1), by omega⟩
  have hpre := loop_prefix client st pattern (-1) (f + 1) m
    (fun i hi => ⟨Or.inr rfl, hok i (by omega), hnz i (by omega)⟩)
  have hlast := loop_last_zero client st pattern (-1) f m (chainKeys client st pattern m)
    (chainCalls client st pattern m) (Or.inr rfl) (hok m (by omega)) hzero
  refine ⟨_, hpre.trans hlast, rfl, ?_, ?_, ?_⟩
  · simp [chainCalls]
  · rw [← chainCalls_succ]
    unfold chainCalls
    exact List.map_congr_left (fun i _ => chainCall_eq client st pattern i)
  · exact (chainKeys_succ client st pattern m).symm

/-- C2 on the three-page server (cursors 17, 42, 0): three calls, all three pages in
order, the repeated key `"a"` kept. -/
theorem C2_unbounded_scan_concatenates_all_pages_witness :
    ∃ r, KeysWithLimit 3 scripted threePages "user:*" (-1) = some r
      ∧ r.err = none
      ∧ r.calls.length = 3
      ∧ r.calls = (List.range 3).map (fun i =>
          (⟨match i with
            | 0 => 0
            | i + 1 => (chainReply scripted threePages "user:*" i).cursor, "user:*", 100⟩ :
            ScanCall))
      ∧ r.redisKeys
          = ((List.range 3).map
              (fun i => (chainReply scripted threePages "user:*" i).keys)).flatten :=
  C2_unbounded_scan_concatenates_all_pages scripted threePages "user:*" 3 3
    (by decide)
    ⟨by decide, by decide, fun i hi => by
      have h2 : i < 2 := by omega
      interval_cases i <;> decide⟩
    (by decide)

/-- The unbounded scan of the three-page server, evaluated. -/
theorem threePages_unbounded_eval :
    (KeysWithLimit 3 scripted threePages "user:*" (-1)).map KeysResult.view
      = some (["a", "b", "c", "d", "a"], none,
          [⟨0, "user:*", 100⟩, ⟨17, "user:*", 100⟩, ⟨42, "user:*", 100⟩]) := by
  decide

/-- The bounded loop, in the form used for C3: `m ≤ k` pages, no zero cursor
before the last of them, and either `m = k` or the `m`-th page comes with cursor 0. -/
theorem bounded_scan_core {σ : Type} (client : RedisClient σ) (st : σ) (pattern : String)
    (k m fuel : Nat) (hk : (k : Int) < 2 ^ 63)
    (hok : ∀ i, i < m → (chainReply client st pattern i).err = none)
    (hle : m ≤ k)
    (hnz : ∀ i, i + 1 < m → (chainReply client st pattern i).cursor ≠ 0)
    (hstop : m = k ∨ (0 < m ∧ (chainReply client st pattern (m - 1)).cursor = 0))
    (hfuel : k + 1 ≤ fuel) :
    ∃ r, KeysWithLimit fuel client st pattern k = some r
      ∧ r.err = none
      ∧ r.calls = chainCalls client st pattern m
      ∧ r.redisKeys = chainKeys client st pattern m := by
  have hkne : ¬ ((k : Int) = -1) := by omega
  cases m with
  | zero =>
    obtain ⟨f, rfl⟩ : ∃ f, fuel = f + 1 := ⟨fuel - 1, by omega⟩
    have hk0 : k = 0 := by omega
    subst hk0
    refine ⟨⟨[], none, st, []⟩, ?_, rfl, rfl, rfl⟩
    exact loop_guard_false client pattern _ f st 0 0 [] [] (by simp)
  | succ m' =>
    obtain ⟨f, rfl⟩ : ∃ f, fuel = (f + 2) + m' := ⟨fuel - (m' + 2), by omega⟩
    have hg : ∀ i, i ≤ m' → (scanCountAt i < (k : Int) ∨ (k : Int) = -1) := fun i hi =>
      guard_of_limit k hk m' i hi (Or.inr (by omega))
    have hpre := loop_prefix client st pattern k (f + 2) m'
      (fun i hi => ⟨hg i (by omega), hok i (by omega), hnz i (by omega)⟩)
    by_cases hz : (chainReply client st pattern m').cursor = 0
    · have hlast := loop_last_zero client st pattern k (f + 1) m'
        (chainKeys client st pattern m') (chainCalls client st pattern m')
        (hg m' (Nat.le_refl m')) (hok m' (by omega)) hz
      exact ⟨_, hpre.trans hlast, rfl, (chainCalls_succ client st pattern m').symm,
        (chainKeys_succ client st pattern m').symm⟩
    · have hmk : m' + 1 = k := by
        rcases hstop with h | ⟨_, h⟩
        · exact h
        · exact absurd h hz
      have hstep := loop_step client st pattern k (f + 1) m'
        (chainKeys client st pattern m') (chainCalls client st pattern m')
        (hg m' (Nat.le_refl m')) (hok m' (by omega)) hz
      have hend := loop_guard_false client pattern k f (chainAt client st pattern (m' + 1)).1
        (chainAt client st pattern (m' + 1)).2 (scanCountAt (m' + 1))
        (chainKeys client st pattern m' ++ (chainReply client st pattern m').keys)
        (chainCalls client st pattern m' ++ [chainCall client st pattern m'])
        (by
          rw [scanCountAt_eq (m' + 1) (by omega)]
          omega)
      exact ⟨_, (hpre.trans hstep).trans hend, rfl, (chainCalls_succ client st pattern m').symm,
        (chainKeys_succ client st pattern m').symm⟩

/-- C3: for a limit `k ≥ 0` and a client whose `Scan` calls succeed (the first `m`
of them is all that is used), `KeysWithLimit(client, pattern, k)` returns after
`m = min(k, n)` calls, hence at most `k`, where `n` is the call on which the cursor
first returns to 0 (`m = k` if it never does); the error is nil and the keys are
the first `m` pages concatenated in page order. -/
theorem C3_bounded_scan_returns_first_pages {σ : Type} (client : RedisClient σ) (st : σ)
    (pattern : String) (k m fuel : Nat)
    (hk : (k : Int) < 2 ^ 63)
    (hok : ∀ i, i < m → (chainReply client st pattern i).err = none)
    (hm : (∃ n, firstZeroOn client st pattern n ∧ m = min k n)
      ∨ ((∀ i, (chainReply client st pattern i).cursor ≠ 0) ∧ m = k))
    (hfuel : k + 1 ≤ fuel) :
    ∃ r, KeysWithLimit fuel client st pattern k = some r
      ∧ r.err = none
      ∧ r.calls.length = m
      ∧ r.calls.length ≤ k
      ∧ r.calls = chainCalls client st pattern m
      ∧ r.redisKeys
          = ((List.range m).map (fun i => (chainReply client st pattern i).keys)).flatten := by
  have hfacts : m ≤ k ∧ (∀ i, i + 1 < m → (chainReply client st pattern i).cursor ≠ 0)
      ∧ (m = k ∨ (0 < m ∧ (chainReply client st pattern (m - 1)).cursor = 0)) := by
    rcases hm with ⟨n, ⟨hpos, hzero, hnz⟩, hmin⟩ | ⟨hnever, hmk⟩
    · refine ⟨by omega, fun i hi => hnz i (by omega), ?_⟩
      by_cases hkn : k ≤ n
      · exact Or.inl (by omega)
      · have hmn : m = n := by omega
        exact Or.inr ⟨by omega, by rw [hmn]; exact hzero⟩
    · exact ⟨by omega, fun i _ => hnever i, Or.inl hmk⟩
  obtain ⟨hle, hnz, hstop⟩ := hfacts
  obtain ⟨r, hr, herr, hcalls, hkeys⟩ := bounded_scan_core client st pattern k m fuel hk
    hok hle hnz hstop hfuel
  have hlen : r.calls.length = m := by simp [hcalls, chainCalls]
  exact ⟨r, hr, herr, hlen, by omega, hcalls, hkeys⟩

/-- C3 with `k = 2` against the server that needs three pages: two calls, the
first two pages. -/
theorem C3_bounded_scan_returns_first_pages_witness :
    ∃ r, KeysWithLimit 3 scripted threePages "*" ((2 : Nat) : Int) = some r
      ∧ r.err = none
      ∧ r.calls.length = 2
      ∧ r.calls.length ≤ 2
      ∧ r.calls = chainCalls scripted threePages "*" 2
      ∧ r.redisKeys
          = ((List.range 2).map (fun i => (chainReply scripted threePages "*" i).keys)).flatten :=
  C3_bounded_scan_returns_first_pages scripted threePages "*" 2 2 3
    (by decide)
    (by decide)
    (Or.inl ⟨3, ⟨by decide, by decide, fun i hi => by
      have h2 : i < 2 := by omega
      interval_cases i <;> decide⟩, by decide⟩)
    (by decide)

/-- The scan of the three-page server bounded to two pages, evaluated: the first
two pages' keys and no error. -/
theorem threePages_bounded_eval :
    (KeysWithLimit 3 scripted threePages "*" 2).map KeysResult.view
      = some (["a", "b", "c"], none, [⟨0, "*", 100⟩, ⟨17, "*", 100⟩]) := by
  decide

/-! ## `RedisKeys` and `RedisAllKeys` -/

/-- Whatever the scan does, the error `RedisKeys` returns is nil. -/
theorem RedisKeys_err_nil {σ : Type} (fuel : Nat) (client : RedisClient σ) (st : σ)
    (pattern : String) (r : RedisKeysResult σ)
    (h : RedisKeys fuel client st pattern = some r) : r.err = none := by
  unfold RedisKeys at h
  split at h
  · exact absurd h (by simp)
  · split at h <;> (cases h; rfl)

/-- C4 (the code at the failing input): when the second `Scan` call of the
exact-pattern query fails with `i/o timeout`, `RedisKeys` returns the nil key list
and the nil error: the scan error does not reach the caller. -/
theorem C4_RedisKeys_drops_scan_error :
    (RedisKeys 3 scripted failsOnPageTwo "user:*").map RedisKeysResult.view
      = some ([], none, [⟨0, "user:*", 100⟩, ⟨17, "user:*", 100⟩]) := by
  decide

/-- C5 (the code at the failing input): with `cache = true` and a cache refreshed
10 seconds before now, `RedisAllKeys` does not answer from the cache: it scans and
replaces the cache. With a stored refresh time 61 seconds after now it does answer
from the cache, without a `Scan` call. -/
theorem C5_cache_not_served_within_sixty_seconds :
    (RedisAllKeys 11 scripted threePages ⟨["old"], 990 * Second⟩
        (1000 * Second) (1001 * Second) true).map AllKeysResult.view
      = some (["a", "b", "c", "d", "a"], none, ⟨["a", "b", "c", "d", "a"], 1001 * Second⟩,
          [⟨0, "*", 100⟩, ⟨17, "*", 100⟩, ⟨42, "*", 100⟩])
    ∧ (RedisAllKeys 11 scripted threePages ⟨["old"], 1061 * Second⟩
        (1000 * Second) (1001 * Second) true).map AllKeysResult.view
      = some (["old"], none, ⟨["old"], 1061 * Second⟩, []) := by
  constructor <;> decide

/-! ## `strconv.Atoi` -/

/-- When the digits after the sign are accepted, and with which value. -/
theorem atoiDigits_ok_iff (neg : Bool) (ds : List Char) (n : Int) :
    atoiDigits neg ds = .ok n ↔
      ds ≠ [] ∧ ds.all isDecimalDigit = true
        ∧ n = (if neg then -(digitsValue ds : Int) else (digitsValue ds : Int))
        ∧ -2 ^ 63 ≤ n ∧ n < 2 ^ 63 := by
  unfold atoiDigits
  by_cases he : ds = []
  · simp [he]
  · by_cases ha : ds.all isDecimalDigit = true
    · have hcond : (ds.isEmpty || !ds.all isDecimalDigit) = false := by
        simp [he, ha, List.isEmpty_iff]
      simp only [hcond, Bool.false_eq_true, if_false]
      by_cases hr : -2 ^ 63 ≤ (if neg = true then -(digitsValue ds : Int) else (digitsValue ds : Int))
          ∧ (if neg = true then -(digitsValue ds : Int) else (digitsValue ds : Int)) < 2 ^ 63
      · simp only [hr, and_self, if_true, Except.ok.injEq]
        constructor
        · intro h
          subst h
          exact ⟨he, ha, rfl, hr.1, hr.2⟩
        · intro h
          exact h.2.2.1.symm
      · simp only [hr, if_false]
        constructor
        · intro h; cases h
        · rintro ⟨_, _, h3, h4, h5⟩
          subst h3
          exact absurd ⟨h4, h5⟩ hr
    · have hcond : (ds.isEmpty || !ds.all isDecimalDigit) = true := by
        simp only [Bool.not_eq_true] at ha
        simp [ha]
      simp only [hcond, if_true]
      constructor
      · intro h; cases h
      · rintro ⟨_, h2, _⟩
        exact absurd h2 ha

/-- The strings `strconv.Atoi` accepts are the signed decimals within range. -/
theorem Atoi_ok_iff (s : String) (n : Int) :
    Atoi s = .ok n ↔ isSignedDecimal s n ∧ -2 ^ 63 ≤ n ∧ n < 2 ^ 63 := by
  have hminus : isDecimalDigit '-' = false := by decide
  have hplus : isDecimalDigit '+' = false := by decide
  unfold Atoi isSignedDecimal
  cases hd : s.data with
  | nil =>
    simp only
    constructor
    · intro h; cases h
    · rintro ⟨⟨ds, hne, _, h | h | h⟩, _⟩
      · exact absurd h.1.symm hne
      · simp at h
      · simp at h
  | cons c rest =>
    simp only
    by_cases hm : c = '-'
    · subst hm
      simp only [if_true]
      rw [atoiDigits_ok_iff]
      constructor
      · rintro ⟨h1, h2, h3, h4, h5⟩
        exact ⟨⟨rest, h1, h2, Or.inr (Or.inr ⟨rfl, by simpa using h3⟩)⟩, h4, h5⟩
      · rintro ⟨⟨ds, h1, h2, h | h | h⟩, h4, h5⟩
        · obtain ⟨ha, _⟩ := h
          subst ha
          simp [hminus] at h2
        · simp at h
        · obtain ⟨ha, hb⟩ := h
          simp only [List.cons.injEq, true_and] at ha
          subst ha
          exact ⟨h1, h2, by simpa using hb, h4, h5⟩
    · by_cases hp : c = '+'
      · subst hp
        simp only [hm, if_false, if_true]
        rw [atoiDigits_ok_iff]
        constructor
        · rintro ⟨h1, h2, h3, h4, h5⟩
          exact ⟨⟨rest, h1, h2, Or.inr (Or.inl ⟨rfl, by simpa using h3⟩)⟩, h4, h5⟩
        · rintro ⟨⟨ds, h1, h2, h | h | h⟩, h4, h5⟩
          · obtain ⟨ha, _⟩ := h
            subst ha
            simp [hplus] at h2
          · obtain ⟨ha, hb⟩ := h
            simp only [List.cons.injEq, true_and] at ha
            subst ha
            exact ⟨h1, h2, by simpa using hb, h4, h5⟩
          · simp at h
      · simp only [hm, hp, if_false]
        rw [atoiDigits_ok_iff]
        constructor
        · rintro ⟨h1, h2, h3, h4, h5⟩
          exact ⟨⟨c :: rest, h1, h2, Or.inl ⟨rfl, by simpa using h3⟩⟩, h4, h5⟩
        · rintro ⟨⟨ds, h1, h2, h | h | h⟩, h4, h5⟩
          · obtain ⟨ha, hb⟩ := h
            subst ha
            exact ⟨h1, h2, by simpa using hb, h4, h5⟩
          · simp only [List.cons.injEq] at h
            exact absurd h.1.1 hp
          · simp only [List.cons.injEq] at h
            exact absurd h.1.1 hm

/-! ## `parseRedisURL` -/

/-- The fields the tail of `parseRedisURL` never writes, and those it leaves alone
when it fails. -/
theorem parseRedisURLTail_frame (u : URL) (conf : Config) :
    (parseRedisURLTail u conf).1.Host = conf.Host
      ∧ (parseRedisURLTail u conf).1.Port = conf.Port
      ∧ (parseRedisURLTail u conf).1.TLS = conf.TLS
      ∧ (parseRedisURLTail u conf).1.Debug = conf.Debug
      ∧ (parseRedisURLTail u conf).1.TLSCert = conf.TLSCert
      ∧ (parseRedisURLTail u conf).1.TLSKey = conf.TLSKey
      ∧ (parseRedisURLTail u conf).1.TLSCACert = conf.TLSCACert
      ∧ (parseRedisURLTail u conf).1.TLSVerify = conf.TLSVerify
      ∧ (parseRedisURLTail u conf).1.Password
          = (if (userPassword u.User).2 = true then (userPassword u.User).1 else conf.Password)
      ∧ ((parseRedisURLTail u conf).2 ≠ none →
          (parseRedisURLTail u conf).1.DB = conf.DB
            ∧ (parseRedisURLTail u conf).1.Cluster = conf.Cluster) := by
  unfold parseRedisURLTail
  by_cases hpw : (userPassword u.User).2 = true <;>
  by_cases hpath : u.Path ≠ "" ∧ u.Path ≠ "/" <;>
  by_cases hcl : u.Query.Get "cluster" = "true" <;>
  cases hdb : Atoi (trimSlash u.Path) <;>
  simp [hpw, hpath, hcl, hdb]

/-- C6 (as stated, refuted): on `rediss://cache.example.com/abc` `parseRedisURL`
returns the invalid-database error, and the configuration it was given has
changed: `TLS` is now true and `Host` is the URL's host. -/
theorem C6_config_changed_despite_error :
    parseRedisURL urlParseExamples "rediss://cache.example.com/abc" defaultConf
        = ({ defaultConf with TLS := true, Host := "cache.example.com" },
            some "invalid database number: abc")
      ∧ (parseRedisURL urlParseExamples "rediss://cache.example.com/abc" defaultConf).1
          ≠ defaultConf := by
  decide

/-- With a scheme other than `redis` and `rediss` nothing is written. -/
theorem parseRedisURLParsed_bad_scheme (u : URL) (conf : Config)
    (h₁ : u.Scheme ≠ "redis") (h₂ : u.Scheme ≠ "rediss") :
    parseRedisURLParsed u conf = (conf, some ("invalid scheme: " ++ u.Scheme)) := by
  simp [parseRedisURLParsed, h₁, h₂]

/-- What `parseRedisURL` has written when it returns, with or without an error, for
a URL with one of the two schemes. -/
theorem parseRedisURLParsed_frame (u : URL) (conf : Config)
    (hs : u.Scheme = "redis" ∨ u.Scheme = "rediss") :
    (parseRedisURLParsed u conf).1.TLS = decide (u.Scheme = "rediss")
      ∧ (parseRedisURLParsed u conf).1.Host
          = (if u.Hostname ≠ "" then u.Hostname else conf.Host)
      ∧ (parseRedisURLParsed u conf).1.Debug = conf.Debug
      ∧ (parseRedisURLParsed u conf).1.TLSCert = conf.TLSCert
      ∧ (parseRedisURLParsed u conf).1.TLSKey = conf.TLSKey
      ∧ (parseRedisURLParsed u conf).1.TLSCACert = conf.TLSCACert
      ∧ (parseRedisURLParsed u conf).1.TLSVerify = conf.TLSVerify
      ∧ ((parseRedisURLParsed u conf).2 ≠ none →
          (parseRedisURLParsed u conf).1.DB = conf.DB
            ∧ (parseRedisURLParsed u conf).1.Cluster = conf.Cluster) := by
  have hne : ("redis" : String) ≠ "rediss" := by decide
  unfold parseRedisURLParsed parseRedisURLTail
  by_cases hh : u.Hostname ≠ "" <;>
  by_cases hp : u.Port ≠ "" <;>
  by_cases hpw : (userPassword u.User).2 = true <;>
  by_cases hpath : u.Path ≠ "" ∧ u.Path ≠ "/" <;>
  by_cases hcl : u.Query.Get "cluster" = "true" <;>
  cases hport : Atoi u.Port <;>
  cases hdb : Atoi (trimSlash u.Path) <;>
  rcases hs with h | h <;>
  simp [h, hne, hh, hp, hpw, hpath, hcl, hport, hdb]

/-- C6 (amended): if `parseRedisURL` returns an error, then `DB`, `Cluster`, `Debug`,
`TLSCert`, `TLSKey`, `TLSCACert` and `TLSVerify` are as they were before the call;
when the error is that of `url.Parse` or of the scheme check (the URL does not
parse, or parses with a scheme other than `redis` and `rediss`), the whole
configuration is as it was; and when it is a later error (the scheme is `redis` or
`rediss`), `TLS` and `Host` already hold what the URL says. -/
theorem C6_error_leaves_config_partly_untouched (urlParse : String → Except GoError URL)
    (redisURL : String) (conf : Config)
    (herr : (parseRedisURL urlParse redisURL conf).2 ≠ none) :
    (parseRedisURL urlParse redisURL conf).1.DB = conf.DB
      ∧ (parseRedisURL urlParse redisURL conf).1.Cluster = conf.Cluster
      ∧ (parseRedisURL urlParse redisURL conf).1.Debug = conf.Debug
      ∧ (parseRedisURL urlParse redisURL conf).1.TLSCert = conf.TLSCert
      ∧ (parseRedisURL urlParse redisURL conf).1.TLSKey = conf.TLSKey
      ∧ (parseRedisURL urlParse redisURL conf).1.TLSCACert = conf.TLSCACert
      ∧ (parseRedisURL urlParse redisURL conf).1.TLSVerify = conf.TLSVerify
      ∧ ((∀ u, urlParse redisURL = .ok u → u.Scheme ≠ "redis" ∧ u.Scheme ≠ "rediss") →
          (parseRedisURL urlParse redisURL conf).1 = conf)
      ∧ (∀ u, urlParse redisURL = .ok u → (u.Scheme = "redis" ∨ u.Scheme = "rediss") →
          (parseRedisURL urlParse redisURL conf).1.TLS = decide (u.Scheme = "rediss")
            ∧ (parseRedisURL urlParse redisURL conf).1.Host
              = (if u.Hostname ≠ "" then u.Hostname else conf.Host)) := by
  unfold parseRedisURL at herr ⊢
  cases hp : urlParse redisURL with
  | error e =>
    exact ⟨rfl, rfl, rfl, rfl, rfl, rfl, rfl, fun _ => rfl, fun v hv => by cases hv⟩
  | ok u =>
    simp only [hp] at herr ⊢
    by_cases hs : u.Scheme = "redis" ∨ u.Scheme = "rediss"
    · obtain ⟨t1, t2, b3, b4, b5, b6, b7, b8⟩ := parseRedisURLParsed_frame u conf hs
      obtain ⟨b1, b2⟩ := b8 herr
      refine ⟨b1, b2, b3, b4, b5, b6, b7, fun hall => ?_, fun v hv _ => ?_⟩
      · have := hall u rfl
        rcases hs with h | h
        · exact absurd h this.1
        · exact absurd h this.2
      · cases hv
        exact ⟨t1, t2⟩
    · have h₁ : u.Scheme ≠ "redis" := fun h => hs (Or.inl h)
      have h₂ : u.Scheme ≠ "rediss" := fun h => hs (Or.inr h)
      rw [parseRedisURLParsed_bad_scheme u conf h₁ h₂]
      refine ⟨rfl, rfl, rfl, rfl, rfl, rfl, rfl, fun _ => rfl, fun v hv hvs => ?_⟩
      cases hv
      exact absurd hvs hs

/-- C6 (amended) on `rediss://cache.example.com/abc`. -/
theorem C6_error_leaves_config_partly_untouched_witness :
    (parseRedisURL urlParseExamples "rediss://cache.example.com/abc" defaultConf).1.DB
        = defaultConf.DB
      ∧ (parseRedisURL urlParseExamples "rediss://cache.example.com/abc" defaultConf).1.Cluster
        = defaultConf.Cluster
      ∧ (parseRedisURL urlParseExamples "rediss://cache.example.com/abc" defaultConf).1.Debug
        = defaultConf.Debug
      ∧ (parseRedisURL urlParseExamples "rediss://cache.example.com/abc" defaultConf).1.TLSCert
        = defaultConf.TLSCert
      ∧ (parseRedisURL urlParseExamples "rediss://cache.example.com/abc" defaultConf).1.TLSKey
        = defaultConf.TLSKey
      ∧ (parseRedisURL urlParseExamples "rediss://cache.example.com/abc" defaultConf).1.TLSCACert
        = defaultConf.TLSCACert
      ∧ (parseRedisURL urlParseExamples "rediss://cache.example.com/abc" defaultConf).1.TLSVerify
        = defaultConf.TLSVerify
      ∧ ((∀ u, urlParseExamples "rediss://cache.example.com/abc" = .ok u →
            u.Scheme ≠ "redis" ∧ u.Scheme ≠ "rediss") →
          (parseRedisURL urlParseExamples "rediss://cache.example.com/abc" defaultConf).1
            = defaultConf)
      ∧ (∀ u, urlParseExamples "rediss://cache.example.com/abc" = .ok u →
          (u.Scheme = "redis" ∨ u.Scheme = "rediss") →
          (parseRedisURL urlParseExamples "rediss://cache.example.com/abc" defaultConf).1.TLS
              = decide (u.Scheme = "rediss")
            ∧ (parseRedisURL urlParseExamples "rediss://cache.example.com/abc" defaultConf).1.Host
              = (if u.Hostname ≠ "" then u.Hostname else defaultConf.Host)) :=
  C6_error_leaves_config_partly_untouched urlParseExamples "rediss://cache.example.com/abc"
    defaultConf (by decide)

/-- What `parseRedisURL` has written when it returns without an error. -/
theorem parseRedisURLParsed_success (u : URL) (conf : Config)
    (hok : (parseRedisURLParsed u conf).2 = none) :
    (u.Scheme = "redis" ∨ u.Scheme = "rediss")
      ∧ (u.Port = "" → (parseRedisURLParsed u conf).1.Port = conf.Port)
      ∧ (u.Port ≠ "" → Atoi u.Port = .ok (parseRedisURLParsed u conf).1.Port)
      ∧ (parseRedisURLParsed u conf).1.Password
          = (if (userPassword u.User).2 = true then (userPassword u.User).1 else conf.Password)
      ∧ (u.Path ≠ "" ∧ u.Path ≠ "/" →
          Atoi (trimSlash u.Path) = .ok (parseRedisURLParsed u conf).1.DB)
      ∧ (¬ (u.Path ≠ "" ∧ u.Path ≠ "/") → (parseRedisURLParsed u conf).1.DB = conf.DB)
      ∧ (parseRedisURLParsed u conf).1.Cluster
          = (conf.Cluster || decide (u.Query.Get "cluster" = "true")) := by
  have hne : ("redis" : String) ≠ "rediss" := by decide
  by_cases h₁ : u.Scheme = "redis"
  · revert hok
    unfold parseRedisURLParsed parseRedisURLTail
    by_cases hh : u.Hostname ≠ "" <;>
    by_cases hp : u.Port ≠ "" <;>
    by_cases hpw : (userPassword u.User).2 = true <;>
    by_cases hpath : u.Path ≠ "" ∧ u.Path ≠ "/" <;>
    by_cases hcl : u.Query.Get "cluster" = "true" <;>
    cases hport : Atoi u.Port <;>
    cases hdb : Atoi (trimSlash u.Path) <;>
    simp [h₁, hne, hh, hp, hpw, hpath, hcl, hport, hdb]
  · by_cases h₂ : u.Scheme = "rediss"
    · revert hok
      unfold parseRedisURLParsed parseRedisURLTail
      by_cases hh : u.Hostname ≠ "" <;>
      by_cases hp : u.Port ≠ "" <;>
      by_cases hpw : (userPassword u.User).2 = true <;>
      by_cases hpath : u.Path ≠ "" ∧ u.Path ≠ "/" <;>
      by_cases hcl : u.Query.Get "cluster" = "true" <;>
      cases hport : Atoi u.Port <;>
      cases hdb : Atoi (trimSlash u.Path) <;>
      simp [h₂, hne, hh, hp, hpw, hpath, hcl, hport, hdb]
    · rw [parseRedisURLParsed_bad_scheme u conf h₁ h₂] at hok
      simp at hok

/-- The error of `parseRedisURL` when the database in the path is not accepted by
`strconv.Atoi`. -/
theorem parseRedisURLParsed_db_error (u : URL) (conf : Config)
    (hpath : u.Path ≠ "" ∧ u.Path ≠ "/") (e : NumError)
    (hdb : Atoi (trimSlash u.Path) = .error e) :
    (parseRedisURLParsed u conf).2 ≠ none
      ∧ ((u.Scheme = "redis" ∨ u.Scheme = "rediss") →
          (u.Port = "" ∨ ∃ p, Atoi u.Port = .ok p) →
          (parseRedisURLParsed u conf).2
            = some ("invalid database number: " ++ trimSlash u.Path)) := by
  have hne : ("redis" : String) ≠ "rediss" := by decide
  unfold parseRedisURLParsed parseRedisURLTail
  by_cases h₁ : u.Scheme = "redis" <;>
  by_cases h₂ : u.Scheme = "rediss" <;>
  by_cases hh : u.Hostname ≠ "" <;>
  by_cases hp : u.Port ≠ "" <;>
  by_cases hpw : (userPassword u.User).2 = true <;>
  by_cases hcl : u.Query.Get "cluster" = "true" <;>
  cases hport : Atoi u.Port <;>
  simp [h₁, h₂, hne, hh, hp, hpw, hpath, hcl, hport, hdb]

/-- When `parseRedisURL` returns without an error: the scheme is one of the two,
and the port and the database, where present, are accepted by `strconv.Atoi`. -/
theorem parseRedisURLParsed_no_error (u : URL) (conf : Config)
    (hs : u.Scheme = "redis" ∨ u.Scheme = "rediss")
    (hport : u.Port = "" ∨ ∃ p, Atoi u.Port = .ok p)
    (hdb : ¬ (u.Path ≠ "" ∧ u.Path ≠ "/") ∨ ∃ d, Atoi (trimSlash u.Path) = .ok d) :
    (parseRedisURLParsed u conf).2 = none := by
  have hne : ("redis" : String) ≠ "rediss" := by decide
  unfold parseRedisURLParsed parseRedisURLTail
  by_cases hh : u.Hostname ≠ "" <;>
  by_cases hp : u.Port ≠ "" <;>
  by_cases hpw : (userPassword u.User).2 = true <;>
  by_cases hpath : u.Path ≠ "" ∧ u.Path ≠ "/" <;>
  by_cases hcl : u.Query.Get "cluster" = "true" <;>
  rcases hs with h | h <;>
  rcases hport with hp0 | ⟨p, hp1⟩ <;>
  rcases hdb with hd0 | ⟨d, hd1⟩ <;>
  first
    | contradiction
    | simp [*]

/-- C7: for a URL that `url.Parse` accepts, `parseRedisURL` sets `conf.TLS` to true
when the scheme is `rediss` and to false when it is `redis`, whatever `conf.TLS`
was before, and returns the invalid-scheme error for every other scheme. -/
theorem C7_scheme_decides_TLS (urlParse : String → Except GoError URL) (redisURL : String)
    (conf : Config) (u : URL) (hparse : urlParse redisURL = .ok u) :
    (u.Scheme = "rediss" → (parseRedisURL urlParse redisURL conf).1.TLS = true)
      ∧ (u.Scheme = "redis" → (parseRedisURL urlParse redisURL conf).1.TLS = false)
      ∧ (u.Scheme ≠ "redis" → u.Scheme ≠ "rediss" →
          (parseRedisURL urlParse redisURL conf).2 = some ("invalid scheme: " ++ u.Scheme)) := by
  have hne : ("redis" : String) ≠ "rediss" := by decide
  unfold parseRedisURL
  simp only [hparse]
  refine ⟨fun h => ?_, fun h => ?_, fun h₁ h₂ => ?_⟩
  · rw [(parseRedisURLParsed_frame u conf (Or.inr h)).1]
    simp [h]
  · rw [(parseRedisURLParsed_frame u conf (Or.inl h)).1]
    simp [h, hne]
  · rw [parseRedisURLParsed_bad_scheme u conf h₁ h₂]

/-- C7 on `rediss://admin:s3cret@[::1]:6380`. -/
theorem C7_scheme_decides_TLS_witness :
    ((⟨"rediss", some ⟨"admin", "s3cret", true⟩, "[::1]:6380", "", []⟩ : URL).Scheme = "rediss" →
        (parseRedisURL urlParseExamples "rediss://admin:s3cret@[::1]:6380" defaultConf).1.TLS
          = true)
      ∧ ((⟨"rediss", some ⟨"admin", "s3cret", true⟩, "[::1]:6380", "", []⟩ : URL).Scheme = "redis" →
        (parseRedisURL urlParseExamples "rediss://admin:s3cret@[::1]:6380" defaultConf).1.TLS
          = false)
      ∧ ((⟨"rediss", some ⟨"admin", "s3cret", true⟩, "[::1]:6380", "", []⟩ : URL).Scheme ≠ "redis" →
          (⟨"rediss", some ⟨"admin", "s3cret", true⟩, "[::1]:6380", "", []⟩ : URL).Scheme
            ≠ "rediss" →
          (parseRedisURL urlParseExamples "rediss://admin:s3cret@[::1]:6380" defaultConf).2
            = some ("invalid scheme: "
                ++ (⟨"rediss", some ⟨"admin", "s3cret", true⟩, "[::1]:6380", "", []⟩ : URL).Scheme)) :=
  C7_scheme_decides_TLS urlParseExamples "rediss://admin:s3cret@[::1]:6380" defaultConf
    ⟨"rediss", some ⟨"admin", "s3cret", true⟩, "[::1]:6380", "", []⟩ rfl

/-- The three schemes of the examples, evaluated: `rediss` turns TLS on, `redis`
turns it off, `http` is refused. -/
theorem scheme_examples_eval :
    (parseRedisURL urlParseExamples "rediss://admin:s3cret@[::1]:6380" defaultConf)
        = ({ defaultConf with TLS := true, Host := "::1", Port := 6380, Password := "s3cret" },
            none)
      ∧ (parseRedisURL urlParseExamples "redis://host:1234/7?cluster=true"
            { defaultConf with TLS := true }).1.TLS = false
      ∧ (parseRedisURL urlParseExamples "http://cache.example.com" defaultConf)
          = (defaultConf, some "invalid scheme: http") := by
  decide

/-- C8 (as stated, refuted): for the path made of a slash and `-5`, which is not a
non-negative decimal integer, `parseRedisURL` returns without an error and sets
`conf.DB` to `-5`. -/
theorem C8_negative_database_accepted :
    parseRedisURL urlParseExamples "redis://cache.example.com/-5" defaultConf
        = ({ defaultConf with Host := "cache.example.com", DB := -5 }, none)
      ∧ (parseRedisURL urlParseExamples "redis://cache.example.com/-5" defaultConf).1.DB < 0 := by
  decide

/-- C8 (amended): for a URL whose path is neither empty nor `/`, `parseRedisURL`
returns without an error only if the path after its leading slash is a decimal
integer within the range of `int`, with at most one sign `+` or `-` in front, and
`conf.DB` is then that integer (negative under a `-` sign); for any other path it
returns an error, which is the invalid-database error whenever the scheme and the
port are accepted. -/
theorem C8_database_is_a_signed_decimal (urlParse : String → Except GoError URL)
    (redisURL : String) (conf : Config) (u : URL) (hparse : urlParse redisURL = .ok u)
    (hpath : u.Path ≠ "" ∧ u.Path ≠ "/") :
    ((parseRedisURL urlParse redisURL conf).2 = none →
        isSignedDecimal (trimSlash u.Path) (parseRedisURL urlParse redisURL conf).1.DB
          ∧ -2 ^ 63 ≤ (parseRedisURL urlParse redisURL conf).1.DB
          ∧ (parseRedisURL urlParse redisURL conf).1.DB < 2 ^ 63)
      ∧ ((¬ ∃ n : Int, isSignedDecimal (trimSlash u.Path) n ∧ -2 ^ 63 ≤ n ∧ n < 2 ^ 63) →
          (parseRedisURL urlParse redisURL conf).2 ≠ none
            ∧ ((u.Scheme = "redis" ∨ u.Scheme = "rediss") →
                (u.Port = "" ∨ ∃ p, Atoi u.Port = .ok p) →
                (parseRedisURL urlParse redisURL conf).2
                  = some ("invalid database number: " ++ trimSlash u.Path))) := by
  unfold parseRedisURL
  simp only [hparse]
  constructor
  · intro hok
    exact (Atoi_ok_iff _ _).mp ((parseRedisURLParsed_success u conf hok).2.2.2.2.1 hpath)
  · intro hnot
    cases hdb : Atoi (trimSlash u.Path) with
    | error e => exact parseRedisURLParsed_db_error u conf hpath e hdb
    | ok d => exact absurd ⟨d, (Atoi_ok_iff _ _).mp hdb⟩ hnot

/-- C8 (amended) on `redis://host:1234/7?cluster=true`. -/
theorem C8_database_is_a_signed_decimal_witness :
    ((parseRedisURL urlParseExamples "redis://host:1234/7?cluster=true" defaultConf).2 = none →
        isSignedDecimal (trimSlash exampleURL.Path)
            (parseRedisURL urlParseExamples "redis://host:1234/7?cluster=true" defaultConf).1.DB
          ∧ -2 ^ 63
            ≤ (parseRedisURL urlParseExamples "redis://host:1234/7?cluster=true" defaultConf).1.DB
          ∧ (parseRedisURL urlParseExamples "redis://host:1234/7?cluster=true" defaultConf).1.DB
            < 2 ^ 63)
      ∧ ((¬ ∃ n : Int, isSignedDecimal (trimSlash exampleURL.Path) n ∧ -2 ^ 63 ≤ n ∧ n < 2 ^ 63) →
          (parseRedisURL urlParseExamples "redis://host:1234/7?cluster=true" defaultConf).2 ≠ none
            ∧ ((exampleURL.Scheme = "redis" ∨ exampleURL.Scheme = "rediss") →
                (exampleURL.Port = "" ∨ ∃ p, Atoi exampleURL.Port = .ok p) →
                (parseRedisURL urlParseExamples "redis://host:1234/7?cluster=true" defaultConf).2
                  = some ("invalid database number: " ++ trimSlash exampleURL.Path))) :=
  C8_database_is_a_signed_decimal urlParseExamples "redis://host:1234/7?cluster=true"
    defaultConf exampleURL rfl (by decide)

/-- The user name of the URL is not read: replacing it changes nothing. -/
theorem parseRedisURLParsed_username (u : URL) (conf : Config) (name : String) :
    parseRedisURLParsed (withUsername u name) conf = parseRedisURLParsed u conf := by
  have hpw : userPassword (withUsername u name).User = userPassword u.User := by
    unfold withUsername userPassword
    cases u.User <;> rfl
  unfold parseRedisURLParsed parseRedisURLTail
  rw [hpw]
  rfl

/-- C9: after a successful `parseRedisURL` call, `Host`, `Port` and `DB` hold the
URL's value when the URL has a host name, a port, a path other than `/`, and their
prior value when it has not; `Password` is the URL's password when its user-info
carries one and the prior password otherwise, so that a user name alone changes
nothing, and the user name is not read at all; `Debug`, `TLSCert`, `TLSKey`,
`TLSCACert` and `TLSVerify` are unchanged. In particular, whenever `url.Parse`
gives `redis://host:1234/7?cluster=true` its parsed form, the call succeeds with
`Host` `"host"`, `Port` 1234, `DB` 7 and `Cluster` true. -/
theorem C9_fields_taken_from_URL_or_kept (urlParse : String → Except GoError URL)
    (redisURL : String) (conf : Config) (u : URL) (hparse : urlParse redisURL = .ok u)
    (hok : (parseRedisURL urlParse redisURL conf).2 = none) :
    ((parseRedisURL urlParse redisURL conf).1.Host
          = (if u.Hostname ≠ "" then u.Hostname else conf.Host)
      ∧ (u.Port ≠ "" → Atoi u.Port = .ok (parseRedisURL urlParse redisURL conf).1.Port)
      ∧ (u.Port = "" → (parseRedisURL urlParse redisURL conf).1.Port = conf.Port)
      ∧ (u.Path ≠ "" ∧ u.Path ≠ "/" →
          Atoi (trimSlash u.Path) = .ok (parseRedisURL urlParse redisURL conf).1.DB)
      ∧ (¬ (u.Path ≠ "" ∧ u.Path ≠ "/") → (parseRedisURL urlParse redisURL conf).1.DB = conf.DB)
      ∧ (∀ i, u.User = some i → i.passwordSet = true →
          (parseRedisURL urlParse redisURL conf).1.Password = i.password)
      ∧ (∀ i, u.User = some i → i.passwordSet = false →
          (parseRedisURL urlParse redisURL conf).1.Password = conf.Password)
      ∧ (u.User = none → (parseRedisURL urlParse redisURL conf).1.Password = conf.Password)
      ∧ (∀ name, parseRedisURLParsed (withUsername u name) conf
          = parseRedisURL urlParse redisURL conf)
      ∧ (parseRedisURL urlParse redisURL conf).1.Debug = conf.Debug
      ∧ (parseRedisURL urlParse redisURL conf).1.TLSCert = conf.TLSCert
      ∧ (parseRedisURL urlParse redisURL conf).1.TLSKey = conf.TLSKey
      ∧ (parseRedisURL urlParse redisURL conf).1.TLSCACert = conf.TLSCACert
      ∧ (parseRedisURL urlParse redisURL conf).1.TLSVerify = conf.TLSVerify)
    ∧ (∀ (parse : String → Except GoError URL) (c : Config),
        parse "redis://host:1234/7?cluster=true" = .ok exampleURL →
        (parseRedisURL parse "redis://host:1234/7?cluster=true" c).2 = none
          ∧ (parseRedisURL parse "redis://host:1234/7?cluster=true" c).1.Host = "host"
          ∧ (parseRedisURL parse "redis://host:1234/7?cluster=true" c).1.Port = 1234
          ∧ (parseRedisURL parse "redis://host:1234/7?cluster=true" c).1.DB = 7
          ∧ (parseRedisURL parse "redis://host:1234/7?cluster=true" c).1.Cluster = true) := by
  constructor
  · unfold parseRedisURL at hok ⊢
    simp only [hparse] at hok ⊢
    obtain ⟨hs, hp0, hp1, hpw, hd1, hd0, _⟩ := parseRedisURLParsed_success u conf hok
    obtain ⟨_, hhost, f3, f4, f5, f6, f7, _⟩ := parseRedisURLParsed_frame u conf hs
    refine ⟨hhost, hp1, hp0, hd1, hd0, ?_, ?_, ?_,
      fun name => parseRedisURLParsed_username u conf name, f3, f4, f5, f6, f7⟩
    · intro i hi hset
      rw [hpw]
      simp [userPassword, hi, hset]
    · intro i hi hset
      rw [hpw]
      simp [userPassword, hi, hset]
    · intro hnone
      rw [hpw]
      simp [userPassword, hnone]
  · intro parse c hex
    unfold parseRedisURL
    simp only [hex]
    have hport : exampleURL.Port = "1234" := by decide
    have hpath : exampleURL.Path ≠ "" ∧ exampleURL.Path ≠ "/" := by decide
    have hnoerr : (parseRedisURLParsed exampleURL c).2 = none :=
      parseRedisURLParsed_no_error exampleURL c (Or.inl rfl)
        (Or.inr ⟨1234, by rw [hport]; rfl⟩) (Or.inr ⟨7, rfl⟩)
    obtain ⟨hs, _, hp1, _, hd1, _, hcl⟩ := parseRedisURLParsed_success exampleURL c hnoerr
    obtain ⟨_, hhost, _⟩ := parseRedisURLParsed_frame exampleURL c hs
    refine ⟨hnoerr, ?_, ?_, ?_, ?_⟩
    · have hh : exampleURL.Hostname = "host" := by decide
      have hne : ("host" : String) ≠ "" := by decide
      rw [hhost, hh, if_pos hne]
    · have h := hp1 (by decide)
      rw [hport] at h
      have h' : (Except.ok 1234 : Except NumError Int)
          = .ok (parseRedisURLParsed exampleURL c).1.Port := h
      exact (Except.ok.inj h').symm
    · have h := hd1 hpath
      have h' : (Except.ok 7 : Except NumError Int)
          = .ok (parseRedisURLParsed exampleURL c).1.DB := h
      exact (Except.ok.inj h').symm
    · rw [hcl]
      have : exampleURL.Query.Get "cluster" = "true" := by decide
      simp [this]

/-- C9 on `rediss://admin:s3cret@[::1]:6380`, and on the example of the claim with
the configuration `main` starts from. -/
theorem C9_fields_taken_from_URL_or_kept_witness :
    (parseRedisURL urlParseExamples "rediss://admin:s3cret@[::1]:6380" defaultConf).1.Host
        = "::1"
      ∧ (parseRedisURL urlParseExamples "rediss://admin:s3cret@[::1]:6380" defaultConf).1.Password
        = "s3cret"
      ∧ (parseRedisURL urlParseExamples "rediss://admin:s3cret@[::1]:6380" defaultConf).1.DB
        = defaultConf.DB
      ∧ (parseRedisURL urlParseExamples "redis://host:1234/7?cluster=true" defaultConf).1.Port
        = 1234 := by
  have h := C9_fields_taken_from_URL_or_kept urlParseExamples
    "rediss://admin:s3cret@[::1]:6380" defaultConf
    ⟨"rediss", some ⟨"admin", "s3cret", true⟩, "[::1]:6380", "", []⟩ rfl (by decide)
  obtain ⟨⟨hhost, _, _, _, hdb, hpw, _⟩, hex⟩ := h
  refine ⟨?_, hpw _ rfl rfl, hdb (by decide), (hex urlParseExamples defaultConf rfl).2.2.1⟩
  rw [hhost]
  decide

/-- C10: after a successful `parseRedisURL` call, `conf.Cluster` is true exactly when
it was true before the call or the value of the URL's `cluster` query parameter is
the string `true`. -/
theorem C10_cluster_only_turned_on_by_query (urlParse : String → Except GoError URL)
    (redisURL : String) (conf : Config) (u : URL) (hparse : urlParse redisURL = .ok u)
    (hok : (parseRedisURL urlParse redisURL conf).2 = none) :
    (parseRedisURL urlParse redisURL conf).1.Cluster = true
      ↔ (conf.Cluster = true ∨ u.Query.Get "cluster" = "true") := by
  unfold parseRedisURL at hok ⊢
  simp only [hparse] at hok ⊢
  rw [(parseRedisURLParsed_success u conf hok).2.2.2.2.2.2]
  simp

/-- C10 on `redis://host:1234/7?cluster=true`. -/
theorem C10_cluster_only_turned_on_by_query_witness :
    (parseRedisURL urlParseExamples "redis://host:1234/7?cluster=true" defaultConf).1.Cluster
        = true
      ↔ (defaultConf.Cluster = true ∨ exampleURL.Query.Get "cluster" = "true") :=
  C10_cluster_only_turned_on_by_query urlParseExamples "redis://host:1234/7?cluster=true"
    defaultConf exampleURL rfl (by decide)

/-! ## Splitting and joining -/

theorem splitOnChar_ne_nil (sep : Char) (l : List Char) : splitOnChar sep l ≠ [] := by
  cases l with
  | nil => simp [splitOnChar]
  | cons c cs =>
    unfold splitOnChar
    by_cases h : c = sep
    · simp [h]
    · simp only [h, if_false]
      cases splitOnChar sep cs <;> simp [consFirst]

theorem consFirst_append (c : Char) (ps qs : List (List Char)) (h : ps ≠ []) :
    consFirst c (ps ++ qs) = consFirst c ps ++ qs := by
  cases ps with
  | nil => exact absurd rfl h
  | cons p ps => rfl

theorem length_consFirst (c : Char) (ps : List (List Char)) (h : ps ≠ []) :
    (consFirst c ps).length = ps.length := by
  cases ps with
  | nil => exact absurd rfl h
  | cons p ps => rfl

/-- There is one piece more than there are separators. -/
theorem length_splitOnChar (sep : Char) (l : List Char) :
    (splitOnChar sep l).length = l.count sep + 1 := by
  induction l with
  | nil => rfl
  | cons c cs ih =>
    unfold splitOnChar
    by_cases h : c = sep
    · subst h
      simp [ih]
    · have h' : ¬ (c == sep) = true := by simpa using h
      simp only [h, if_false, length_consFirst c _ (splitOnChar_ne_nil sep cs), ih,
        List.count_cons, h']
      simp

/-- No piece contains the separator. -/
theorem not_mem_of_mem_splitOnChar (sep : Char) (l : List Char) :
    ∀ p ∈ splitOnChar sep l, sep ∉ p := by
  induction l with
  | nil => simp [splitOnChar]
  | cons c cs ih =>
    unfold splitOnChar
    by_cases h : c = sep
    · simp only [h, if_true, List.mem_cons]
      rintro p (rfl | hp)
      · simp
      · exact ih p hp
    · simp only [h, if_false]
      cases hs : splitOnChar sep cs with
      | nil => exact absurd hs (splitOnChar_ne_nil sep cs)
      | cons q qs =>
        rw [hs] at ih
        simp only [consFirst, List.mem_cons]
        rintro p (rfl | hp)
        · have hq := ih q (List.mem_cons_self q qs)
          simp only [List.mem_cons, not_or]
          exact ⟨fun e => h e.symm, hq⟩
        · exact ih p (List.mem_cons_of_mem q hp)

theorem joinWith_cons (sep c : Char) (ps : List (List Char)) (h : ps ≠ []) :
    joinWith sep (consFirst c ps) = c :: joinWith sep ps := by
  cases ps with
  | nil => exact absurd rfl h
  | cons p ps =>
    cases ps with
    | nil => rfl
    | cons q qs => rfl

theorem joinWith_nil_cons (sep : Char) (ps : List (List Char)) (h : ps ≠ []) :
    joinWith sep ([] :: ps) = sep :: joinWith sep ps := by
  cases ps with
  | nil => exact absurd rfl h
  | cons q qs => rfl

/-- Joining the pieces with the separator gives the text back. -/
theorem joinWith_splitOnChar (sep : Char) (l : List Char) :
    joinWith sep (splitOnChar sep l) = l := by
  induction l with
  | nil => rfl
  | cons c cs ih =>
    unfold splitOnChar
    by_cases h : c = sep
    · simp only [h, if_true]
      rw [joinWith_nil_cons sep _ (splitOnChar_ne_nil sep cs), ih]
    · simp only [h, if_false]
      rw [joinWith_cons sep c _ (splitOnChar_ne_nil sep cs), ih]

/-- Splitting a text at a separator splits the pieces. -/
theorem splitOnChar_append (sep : Char) (a b : List Char) :
    splitOnChar sep (a ++ sep :: b) = splitOnChar sep a ++ splitOnChar sep b := by
  induction a with
  | nil => simp [splitOnChar]
  | cons c cs ih =>
    by_cases h : c = sep
    · simp [splitOnChar, h, ih]
    · have e : splitOnChar sep (c :: cs ++ sep :: b)
          = consFirst c (splitOnChar sep (cs ++ sep :: b)) := by
        simp [splitOnChar, h]
      have e' : splitOnChar sep (c :: cs) = consFirst c (splitOnChar sep cs) := by
        simp [splitOnChar, h]
      rw [e, e', ih]
      exact consFirst_append c _ _ (splitOnChar_ne_nil sep cs)

/-- A text without the separator is one piece. -/
theorem splitOnChar_of_not_mem (sep : Char) (l : List Char) (h : sep ∉ l) :
    splitOnChar sep l = [l] := by
  induction l with
  | nil => rfl
  | cons c cs ih =>
    simp only [List.mem_cons, not_or] at h
    have hc : ¬ c = sep := fun e => h.1 e.symm
    simp [splitOnChar, hc, ih h.2, consFirst]

theorem cutFirst_eq_none_iff (sep : Char) (l : List Char) :
    cutFirst sep l = none ↔ sep ∉ l := by
  induction l with
  | nil => simp [cutFirst]
  | cons c cs ih =>
    unfold cutFirst
    by_cases h : c = sep
    · simp [h]
    · have h' : ¬ sep = c := fun e => h e.symm
      simp only [h, if_false, List.mem_cons, h', false_or]
      cases hc : cutFirst sep cs with
      | none => simpa [hc] using ih
      | some ab =>
        simp only [hc] at ih
        simp only [false_iff, not_not] at ih ⊢
        simpa using ih

theorem cutFirst_eq_some_iff (sep : Char) (l a b : List Char) :
    cutFirst sep l = some (a, b) ↔ l = a ++ sep :: b ∧ sep ∉ a := by
  induction l generalizing a with
  | nil => simp [cutFirst]
  | cons c cs ih =>
    unfold cutFirst
    by_cases h : c = sep
    · subst h
      simp only [if_true, Option.some.injEq, Prod.mk.injEq]
      constructor
      · rintro ⟨rfl, rfl⟩
        simp
      · rintro ⟨h1, h2⟩
        cases a with
        | nil =>
          simp only [List.nil_append, List.cons.injEq, true_and] at h1
          exact ⟨rfl, h1⟩
        | cons x xs =>
          simp only [List.cons_append, List.cons.injEq] at h1
          simp only [List.mem_cons, not_or] at h2
          exact absurd h1.1 h2.1
    · simp only [h, if_false]
      cases hc : cutFirst sep cs with
      | none =>
        simp only
        constructor
        · intro hx
          cases hx
        rintro ⟨h1, _⟩
        exfalso
        cases a with
        | nil =>
          simp only [List.nil_append, List.cons.injEq] at h1
          exact absurd h1.1 h
        | cons x xs =>
          simp only [List.cons_append, List.cons.injEq] at h1
          have hmem : sep ∈ cs := by rw [h1.2]; simp
          exact absurd hmem ((cutFirst_eq_none_iff sep cs).mp hc)
      | some ab =>
        obtain ⟨a', b'⟩ := ab
        have ih' := ih a'
        simp only [Option.some.injEq, Prod.mk.injEq]
        constructor
        · rintro ⟨rfl, rfl⟩
          obtain ⟨e1, e2⟩ := (ih a').mp hc
          refine ⟨by rw [e1]; rfl, ?_⟩
          simp only [List.mem_cons, not_or]
          exact ⟨fun e => h e.symm, e2⟩
        · rintro ⟨h1, h2⟩
          cases a with
          | nil =>
            simp only [List.nil_append, List.cons.injEq] at h1
            exact absurd h1.1 h
          | cons x xs =>
            simp only [List.cons_append, List.cons.injEq] at h1
            simp only [List.mem_cons, not_or] at h2
            have := (ih xs).mpr ⟨h1.2, h2.2⟩
            rw [hc] at this
            simp only [Option.some.injEq, Prod.mk.injEq] at this
            obtain ⟨rfl, rfl⟩ := this
            exact ⟨by rw [h1.1], rfl⟩
/-! ## `RedisExecute` -/

/-- C16: `RedisExecute` passes to `Do` the list obtained by splitting the command at
every space, and returns what `Do` returns; for a command with `n` spaces the list
has `n + 1` arguments, none contains a space, and joined with single spaces they
give the command back; `SET foo bar` is dispatched as `["SET", "foo", "bar"]`. -/
theorem C16_command_split_at_every_space {ρ : Type} (Do : List String → ρ) (command : String) :
    RedisExecute Do command = Do (stringsSplit command ' ')
      ∧ (stringsSplit command ' ').length = command.data.count ' ' + 1
      ∧ (∀ a ∈ stringsSplit command ' ', ' ' ∉ a.data)
      ∧ String.mk (joinWith ' ' ((stringsSplit command ' ').map String.data)) = command
      ∧ RedisExecute Do "SET foo bar" = Do ["SET", "foo", "bar"] := by
  refine ⟨rfl, ?_, ?_, ?_, ?_⟩
  · simp [stringsSplit, length_splitOnChar]
  · intro a ha
    simp only [stringsSplit, List.mem_map] at ha
    obtain ⟨p, hp, rfl⟩ := ha
    exact not_mem_of_mem_splitOnChar ' ' command.data p hp
  · have h : (stringsSplit command ' ').map String.data = splitOnChar ' ' command.data := by
      simp [stringsSplit, Function.comp_def]
    rw [h, joinWith_splitOnChar]
  · have h : stringsSplit "SET foo bar" ' ' = ["SET", "foo", "bar"] := by decide
    simp [RedisExecute, h]

/-- C16 on the command `SET foo bar`, with `Do` returning its arguments. -/
theorem C16_command_split_at_every_space_witness :
    RedisExecute id "SET foo bar" = ["SET", "foo", "bar"]
      ∧ (stringsSplit "SET foo bar" ' ').length = ("SET foo bar" : String).data.count ' ' + 1
      ∧ String.mk (joinWith ' ' ((stringsSplit "SET foo bar" ' ').map String.data))
        = "SET foo bar" :=
  have h := C16_command_split_at_every_space (id : List String → List String) "SET foo bar"
  ⟨h.2.2.2.2, h.2.1, h.2.2.2.1⟩

/-! ## `RedisServerInfo` -/

theorem infoStep_skip (kvpairs : List (String × String)) (kv : String)
    (h : ':' ∉ kv.data ∨ kv = "" ∨ hasHashPrefix kv = true) : infoStep kvpairs kv = kvpairs := by
  unfold infoStep
  by_cases hc : hasHashPrefix kv = true ∨ kv = ""
  · simp [hc]
  · simp only [hc, if_false]
    rcases h with h | h | h
    · have := (cutFirst_eq_none_iff ':' kv.data).mpr h
      simp [stringsSplitN2, this]
    · exact absurd (Or.inr h) hc
    · exact absurd (Or.inl h) hc

theorem infoStep_keep (kvpairs : List (String × String)) (kv : String) (a b : List Char)
    (h₁ : kv ≠ "") (h₂ : hasHashPrefix kv = false) (h₃ : cutFirst ':' kv.data = some (a, b)) :
    infoStep kvpairs kv = (String.mk a, String.mk b) :: kvpairs := by
  unfold infoStep
  simp [h₁, h₂, stringsSplitN2, h₃]

theorem mem_infoStep (kvpairs : List (String × String)) (kv k v : String) :
    (k, v) ∈ infoStep kvpairs kv ↔ (k, v) ∈ kvpairs ∨ retainedAs kv k v := by
  by_cases hs : ':' ∉ kv.data ∨ kv = "" ∨ hasHashPrefix kv = true
  · rw [infoStep_skip kvpairs kv hs]
    constructor
    · exact Or.inl
    · rintro (h | ⟨h1, h2, h3, _⟩)
      · exact h
      · rcases hs with hs | hs | hs
        · exact absurd (by rw [h3]; simp) hs
        · exact absurd hs h1
        · rw [h2] at hs
          exact absurd hs (by simp)
  · simp only [not_or, not_not] at hs
    obtain ⟨hcolon, hne, hhash⟩ := hs
    have hhash' : hasHashPrefix kv = false := by simpa using hhash
    cases hc : cutFirst ':' kv.data with
    | none => exact absurd hcolon ((cutFirst_eq_none_iff ':' kv.data).mp hc)
    | some ab =>
      obtain ⟨a, b⟩ := ab
      rw [infoStep_keep kvpairs kv a b hne hhash' hc]
      obtain ⟨e1, e2⟩ := (cutFirst_eq_some_iff ':' kv.data a b).mp hc
      simp only [List.mem_cons, Prod.mk.injEq]
      constructor
      · rintro (⟨rfl, rfl⟩ | h)
        · exact Or.inr ⟨hne, hhash', e1, e2⟩
        · exact Or.inl h
      · rintro (h | ⟨_, _, h3, h4⟩)
        · exact Or.inr h
        · left
          have := (cutFirst_eq_some_iff ':' kv.data k.data v.data).mpr ⟨h3, h4⟩
          rw [hc] at this
          simp only [Option.some.injEq, Prod.mk.injEq] at this
          obtain ⟨rfl, rfl⟩ := this
          exact ⟨rfl, rfl⟩

theorem mem_foldl_infoStep (lines : List String) (k v : String) :
    ∀ kvpairs : List (String × String),
      (k, v) ∈ lines.foldl infoStep kvpairs
        ↔ (k, v) ∈ kvpairs ∨ ∃ l ∈ lines, retainedAs l k v := by
  induction lines with
  | nil => intro kvpairs; simp
  | cons l ls ih =>
    intro kvpairs
    simp only [List.foldl_cons, ih, mem_infoStep, List.mem_cons, exists_eq_or_imp]
    tauto

theorem lookup_eq_none_of_not_mem (m : List (String × String)) (key : String)
    (h : ∀ v, (key, v) ∉ m) : m.lookup key = none := by
  induction m with
  | nil => rfl
  | cons p ps ih =>
    obtain ⟨k, v⟩ := p
    have hk : ¬ key = k := fun e => h v (by rw [e]; exact List.mem_cons_self _ _)
    have hk' : (key == k) = false := by simpa using hk
    simp only [List.lookup, hk']
    exact ih (fun v' hv' => h v' (List.mem_cons_of_mem _ hv'))

theorem mem_of_lookup_eq_some (m : List (String × String)) (key v : String)
    (h : m.lookup key = some v) : (key, v) ∈ m := by
  induction m with
  | nil => simp at h
  | cons p ps ih =>
    obtain ⟨k, w⟩ := p
    simp only [List.lookup] at h
    by_cases hk : key = k
    · subst hk
      simp only [beq_self_eq_true, Option.some.injEq] at h
      subst h
      exact List.mem_cons_self _ _
    · have hk' : (key == k) = false := by simpa using hk
      simp only [hk'] at h
      exact List.mem_cons_of_mem _ (ih h)

/-- C14 (as stated, refuted): the line `db0:`, whose value is empty, is retained, so
for the selected db 0 the summary shows an empty keyspace, not the placeholder. -/
theorem C14_empty_value_line_is_retained :
    infoPairs "redis_version:7.0.5\ndb0:" = [("db0", ""), ("redis_version", "7.0.5")]
      ∧ RedisServerInfo defaultConf ("redis_version:7.0.5\ndb0:", none)
        = (" RedisVersion: 7.0.5    Memory:     Server: 127.0.0.1:6379/0\n KeySpace: ", none)
      ∧ RedisServerInfo defaultConf ("redis_version:7.0.5", none)
        = (" RedisVersion: 7.0.5    Memory:     Server: 127.0.0.1:6379/0\n KeySpace: -", none) := by
  decide

/-- C14 (amended): `RedisServerInfo` retains a line as a key/value pair exactly when
the line is not empty, does not start with `#` and contains a colon; the key is the
text before the first colon and the value the text after it, and either may be
empty. The keyspace shown is the placeholder `-` when no retained line has the key
`db<selected index>`, and otherwise a value retained for that key. -/
theorem C14_lines_with_a_colon_are_retained (conf : Config) (res : String) :
    (∀ k v, (k, v) ∈ infoPairs res ↔ ∃ l ∈ stringsSplit res '\n', retainedAs l k v)
      ∧ ((∀ v, ("db" ++ fmtInt conf.DB, v) ∉ infoPairs res) →
          infoKeySpace conf (infoPairs res) = "-")
      ∧ ((∃ v, ("db" ++ fmtInt conf.DB, v) ∈ infoPairs res) →
          ("db" ++ fmtInt conf.DB, infoKeySpace conf (infoPairs res)) ∈ infoPairs res)
      ∧ (RedisServerInfo conf (res, none)).1
          = " RedisVersion: " ++ mapGet (infoPairs res) "redis_version"
            ++ "    Memory: " ++ mapGet (infoPairs res) "used_memory_human"
            ++ "    Server: " ++ conf.Host ++ ":" ++ fmtInt conf.Port ++ "/" ++ fmtInt conf.DB
            ++ "\n KeySpace: " ++ infoKeySpace conf (infoPairs res) := by
  refine ⟨fun k v => ?_, fun h => ?_, fun h => ?_, rfl⟩
  · unfold infoPairs
    rw [mem_foldl_infoStep]
    simp
  · unfold infoKeySpace
    rw [lookup_eq_none_of_not_mem _ _ h]
  · unfold infoKeySpace
    cases hl : (infoPairs res).lookup ("db" ++ fmtInt conf.DB) with
    | none =>
      obtain ⟨v, hv⟩ := h
      exfalso
      have : ∀ (m : List (String × String)) (key w : String), (key, w) ∈ m →
          m.lookup key ≠ none := by
        intro m key w hm
        induction m with
        | nil => simp at hm
        | cons p ps ih =>
          obtain ⟨k', w'⟩ := p
          by_cases hk : key = k'
          · subst hk
            simp [List.lookup]
          · have hk' : (key == k') = false := by simpa using hk
            simp only [List.lookup, hk']
            simp only [List.mem_cons, Prod.mk.injEq] at hm
            rcases hm with ⟨e, _⟩ | hm
            · exact absurd e hk
            · exact ih hm
      exact this _ _ v hv hl
    | some ks => exact mem_of_lookup_eq_some _ _ _ hl

/-- C14 (amended) on a text without a line for db 0, and on one with the line `db0:`. -/
theorem C14_lines_with_a_colon_are_retained_witness :
    infoKeySpace defaultConf (infoPairs "redis_version:7.0.5") = "-"
      ∧ ("db" ++ fmtInt defaultConf.DB,
          infoKeySpace defaultConf (infoPairs "redis_version:7.0.5\ndb0:"))
        ∈ infoPairs "redis_version:7.0.5\ndb0:" := by
  refine ⟨(C14_lines_with_a_colon_are_retained defaultConf "redis_version:7.0.5").2.1 ?_,
    (C14_lines_with_a_colon_are_retained defaultConf "redis_version:7.0.5\ndb0:").2.2.1
      ⟨"", by decide⟩⟩
  have e : infoPairs "redis_version:7.0.5" = [("redis_version", "7.0.5")] := by decide
  intro v hv
  rw [e] at hv
  simp only [List.mem_singleton, Prod.mk.injEq] at hv
  exact absurd hv.1 (by decide)

theorem data_newline : ("\n" : String).data = ['\n'] := rfl

/-- The map built from a text is the loop over the lines of its two halves. -/
theorem infoPairs_append (a b : String) :
    infoPairs (a ++ "\n" ++ b)
      = (stringsSplit b '\n').foldl infoStep (infoPairs a) := by
  unfold infoPairs stringsSplit
  simp only [String.data_append, data_newline, List.append_assoc, List.singleton_append,
    splitOnChar_append, List.map_append, List.foldl_append]

theorem stringsSplit_line (bad : String) (hline : '\n' ∉ bad.data) :
    stringsSplit bad '\n' = [bad] := by
  unfold stringsSplit
  rw [splitOnChar_of_not_mem '\n' bad.data hline]
  rfl

/-- The summary depends on the text only through the map. -/
theorem RedisServerInfo_congr (conf : Config) (r₁ r₂ : String)
    (h : infoPairs r₁ = infoPairs r₂) :
    RedisServerInfo conf (r₁, none) = RedisServerInfo conf (r₂, none) := by
  simp [RedisServerInfo, h]

/-- C15: when the client returns the INFO text without an error, `RedisServerInfo`
returns a nil error, and its summary is the same with and without a whole line
`bad` that contains no colon, is empty, or starts with `#`, wherever the line
stands: between two parts of the text, in front of it, or at its end. -/
theorem C15_skipped_lines_do_not_change_summary (conf : Config) (a b bad : String)
    (hline : '\n' ∉ bad.data)
    (hbad : ':' ∉ bad.data ∨ bad = "" ∨ hasHashPrefix bad = true) :
    (RedisServerInfo conf (a, none)).2 = none
      ∧ RedisServerInfo conf (a ++ "\n" ++ bad ++ "\n" ++ b, none)
        = RedisServerInfo conf (a ++ "\n" ++ b, none)
      ∧ RedisServerInfo conf (bad ++ "\n" ++ b, none) = RedisServerInfo conf (b, none)
      ∧ RedisServerInfo conf (a ++ "\n" ++ bad, none) = RedisServerInfo conf (a, none) := by
  have hbadPairs : ∀ kvpairs, (stringsSplit bad '\n').foldl infoStep kvpairs = kvpairs := by
    intro kvpairs
    rw [stringsSplit_line bad hline]
    exact infoStep_skip kvpairs bad hbad
  refine ⟨rfl, ?_, ?_, ?_⟩
  · apply RedisServerInfo_congr
    rw [infoPairs_append (a ++ "\n" ++ bad) b, infoPairs_append a bad, infoPairs_append a b,
      hbadPairs]
  · apply RedisServerInfo_congr
    rw [infoPairs_append bad b]
    have : infoPairs bad = [] := hbadPairs []
    rw [this]
    rfl
  · apply RedisServerInfo_congr
    rw [infoPairs_append a bad, hbadPairs]

/-- C15 on a text with the line `broken line`, which has no colon. -/
theorem C15_skipped_lines_do_not_change_summary_witness :
    (RedisServerInfo defaultConf ("redis_version:7.0.5", none)).2 = none
      ∧ RedisServerInfo defaultConf
          ("redis_version:7.0.5" ++ "\n" ++ "broken line" ++ "\n" ++ "db0:keys=3,expires=0", none)
        = RedisServerInfo defaultConf
          ("redis_version:7.0.5" ++ "\n" ++ "db0:keys=3,expires=0", none)
      ∧ RedisServerInfo defaultConf ("broken line" ++ "\n" ++ "db0:keys=3,expires=0", none)
        = RedisServerInfo defaultConf ("db0:keys=3,expires=0", none)
      ∧ RedisServerInfo defaultConf ("redis_version:7.0.5" ++ "\n" ++ "broken line", none)
        = RedisServerInfo defaultConf ("redis_version:7.0.5", none) :=
  C15_skipped_lines_do_not_change_summary defaultConf "redis_version:7.0.5"
    "db0:keys=3,expires=0" "broken line" (by decide) (Or.inl (by decide))

/-- The summary of a text with a line without a colon, evaluated: it is complete. -/
theorem info_with_malformed_line_eval :
    RedisServerInfo defaultConf
        ("# Server\nredis_version:7.0.5\n\nbroken line\nused_memory_human:1.5M\n"
          ++ "db0:keys=3,expires=0\n", none)
      = (" RedisVersion: 7.0.5    Memory: 1.5M    Server: 127.0.0.1:6379/0\n"
          ++ " KeySpace: keys=3,expires=0", none) := by
  decide

/-! ## The bounded scan of `RedisAllKeys` -/

/-- The bounded loop returns, whatever the server does, from position `j` of the
chain on. -/
theorem bounded_scan_total_from {σ : Type} (client : RedisClient σ) (st : σ) (key : String)
    (k fuel : Nat) (hk : (k : Int) < 2 ^ 63) (hfuel : k + 1 ≤ fuel) (d : Nat) :
    ∀ j, j + d = k →
      (∀ i, i < j → (chainReply client st key i).err = none
        ∧ (chainReply client st key i).cursor ≠ 0) →
      ∃ r m, j ≤ m ∧ m ≤ k ∧ (j < k → j < m)
        ∧ KeysWithLimit fuel client st key k = some r
        ∧ r.calls = chainCalls client st key m
        ∧ ((r.err = none ∧ r.redisKeys = chainKeys client st key m)
          ∨ (0 < m ∧ r.err ≠ none ∧ r.err = (chainReply client st key (m - 1)).err
              ∧ r.redisKeys = chainKeys client st key (m - 1))) := by
  induction d with
  | zero =>
    intro j hj hpre
    have hjk : j = k := by omega
    subst hjk
    obtain ⟨f, rfl⟩ : ∃ f, fuel = (f + 1) + j := ⟨fuel - (j + 1), by omega⟩
    have h1 := loop_prefix client st key j (f + 1) j
      (fun i hi => ⟨guard_of_limit j hk i i (Nat.le_refl i) (Or.inr (by omega)),
        (hpre i hi).1, (hpre i hi).2⟩)
    have h2 := loop_guard_false client key j f (chainAt client st key j).1
      (chainAt client st key j).2 (scanCountAt j) (chainKeys client st key j)
      (chainCalls client st key j)
      (by
        rw [scanCountAt_eq j hk]
        omega)
    exact ⟨_, j, Nat.le_refl j, Nat.le_refl j, fun h => absurd h (Nat.lt_irrefl j),
      h1.trans h2, rfl, Or.inl ⟨rfl, rfl⟩⟩
  | succ d ih =>
    intro j hj hpre
    have hjk : j < k := by omega
    obtain ⟨f, rfl⟩ : ∃ f, fuel = (f + 1) + j := ⟨fuel - (j + 1), by omega⟩
    have hg : scanCountAt j < (k : Int) ∨ (k : Int) = -1 :=
      guard_of_limit k hk j j (Nat.le_refl j) (Or.inr (by omega))
    have h1 := loop_prefix client st key k (f + 1) j
      (fun i hi => ⟨guard_of_limit k hk j i (by omega) (Or.inr (by omega)),
        (hpre i hi).1, (hpre i hi).2⟩)
    by_cases herr : (chainReply client st key j).err = none
    · by_cases hcur : (chainReply client st key j).cursor = 0
      · have h2 := loop_last_zero client st key k f j (chainKeys client st key j)
          (chainCalls client st key j) hg herr hcur
        exact ⟨_, j + 1, by omega, by omega, fun _ => by omega, h1.trans h2,
          (chainCalls_succ client st key j).symm,
          Or.inl ⟨rfl, (chainKeys_succ client st key j).symm⟩⟩
      · obtain ⟨r, m, hm1, hm2, hm3, hr⟩ := ih (j + 1) (by omega)
          (fun i hi => by
            rcases Nat.lt_or_ge i j with h | h
            · exact hpre i h
            · have hij : i = j := by omega
              subst hij
              exact ⟨herr, hcur⟩)
        exact ⟨r, m, by omega, hm2, fun _ => by omega, hr⟩
    · have h2 := loop_last_err client st key k f j (chainKeys client st key j)
        (chainCalls client st key j) hg herr
      refine ⟨_, j + 1, by omega, by omega, fun _ => by omega, h1.trans h2,
        (chainCalls_succ client st key j).symm, Or.inr ⟨by omega, herr, ?_, ?_⟩⟩
      · simp
      · simp

/-- With a limit `k ≥ 0` and fuel `k + 1` `KeysWithLimit` returns, whatever the
server does: after `m ≤ k` calls of the chain, either with a nil error and the keys
of those `m` pages, or with the error of the last call and the keys of the pages
before it. -/
theorem bounded_scan_total {σ : Type} (client : RedisClient σ) (st : σ) (key : String)
    (k fuel : Nat) (hk : (k : Int) < 2 ^ 63) (hfuel : k + 1 ≤ fuel) :
    ∃ r m, m ≤ k ∧ (0 < k → 0 < m)
      ∧ KeysWithLimit fuel client st key k = some r
      ∧ r.calls = chainCalls client st key m
      ∧ ((r.err = none ∧ r.redisKeys = chainKeys client st key m)
        ∨ (0 < m ∧ r.err ≠ none ∧ r.err = (chainReply client st key (m - 1)).err
            ∧ r.redisKeys = chainKeys client st key (m - 1))) := by
  obtain ⟨r, m, _, h2, h3, h4⟩ := bounded_scan_total_from client st key k fuel hk hfuel k 0
    (by omega) (fun i hi => absurd hi (Nat.not_lt_zero i))
  exact ⟨r, m, h2, h3, h4⟩

theorem length_chainCalls {σ : Type} (client : RedisClient σ) (st : σ) (key : String) (m : Nat) :
    (chainCalls client st key m).length = m := by
  simp [chainCalls]

theorem mem_chainCalls {σ : Type} (client : RedisClient σ) (st : σ) (key : String) (m : Nat)
    (c : ScanCall) (h : c ∈ chainCalls client st key m) : c.pattern = key ∧ c.count = 100 := by
  simp only [chainCalls, List.mem_map] at h
  obtain ⟨i, _, rfl⟩ := h
  exact ⟨rfl, rfl⟩

theorem length_chainKeys_le {σ : Type} (client : RedisClient σ) (st : σ) (key : String)
    (b m : Nat) (h : ∀ i, i < m → (chainReply client st key i).keys.length ≤ b) :
    (chainKeys client st key m).length ≤ b * m := by
  induction m with
  | zero => simp [chainKeys]
  | succ m ih =>
    rw [chainKeys_succ, List.length_append]
    have h1 := ih (fun i hi => h i (by omega))
    have h2 := h m (by omega)
    rw [Nat.mul_succ]
    omega

/-- The ten-page scan of `RedisAllKeys`, as `bounded_scan_total` gives it. -/
theorem scan_of_ten_pages {σ : Type} (client : RedisClient σ) (st : σ) (fuel : Nat)
    (hfuel : 11 ≤ fuel) :
    ∃ r m, m ≤ 10 ∧ 0 < m
      ∧ KeysWithLimit fuel client st "*" 10 = some r
      ∧ r.calls = chainCalls client st "*" m
      ∧ ((r.err = none ∧ r.redisKeys = chainKeys client st "*" m)
        ∨ (0 < m ∧ r.err ≠ none ∧ r.err = (chainReply client st "*" (m - 1)).err
            ∧ r.redisKeys = chainKeys client st "*" (m - 1))) := by
  obtain ⟨r, m, h1, h2, h3, h4⟩ := bounded_scan_total client st "*" 10 fuel (by norm_num) hfuel
  exact ⟨r, m, h1, h2 (by norm_num), h3, h4⟩

/-- A scan that is not answered from the cache, against a server whose first page
comes with cursor 0: the page is returned whole, whatever its size. -/
theorem RedisAllKeys_single_page (keys : List String) (kc : KeyCache) (now₁ now₂ : Int) :
    RedisAllKeys 11 scripted [⟨keys, 0, none⟩] kc now₁ now₂ false
      = some ⟨keys, none, ⟨keys, now₂⟩, [], [⟨0, "*", 100⟩]⟩ := by
  simp [RedisAllKeys, KeysWithLimit, KeysWithLimitLoop, scripted]

/-- C17 (as stated, refuted): against a server that answers the first call with one
page of 1001 keys, `RedisAllKeys` makes one `Scan` call with page size 100 and
returns a key list of 1001 keys. -/
theorem C17_page_larger_than_count :
    (RedisAllKeys 11 scripted [⟨List.replicate 1001 "k", 0, none⟩] initialCache 0 0 false).map
        (fun r => (r.keys.length, r.err, r.calls))
      = some (1001, none, [⟨0, "*", 100⟩]) := by
  rw [RedisAllKeys_single_page]
  simp only [Option.map_some', List.length_replicate]

/-- `RedisAllKeys` when it is not answered from the cache, in terms of the outcome
`s` of its scan. -/
theorem RedisAllKeys_miss {σ : Type} (fuel : Nat) (client : RedisClient σ) (st : σ)
    (kc : KeyCache) (now₁ now₂ : Int) (cache : Bool) (s : KeysResult σ)
    (hmiss : ¬ (cache = true ∧ kc.redisKeysLastUpdate > now₁ + 60 * Second))
    (hs : KeysWithLimit fuel client st "*" 10 = some s) :
    RedisAllKeys fuel client st kc now₁ now₂ cache
      = some (if s.err ≠ none then ⟨[], s.err, kc, s.st, s.calls⟩
          else ⟨s.redisKeys, none, ⟨s.redisKeys, now₂⟩, s.st, s.calls⟩) := by
  unfold RedisAllKeys
  rw [if_neg hmiss, hs]
  by_cases h : s.err ≠ none
  · simp only [if_pos h]
  · simp only [if_neg h]

/-- C17 (amended): a `RedisAllKeys` call that is not answered from the cache returns
after at most 10 `Scan` calls, the first calls of the chain, each for the pattern
`*` with page size 100; the key list it returns holds at most 1000 keys when none
of the pages the server returned to these calls holds more than 100 keys. -/
theorem C17_at_most_ten_scans_of_hundred {σ : Type} (fuel : Nat) (client : RedisClient σ)
    (st : σ) (kc : KeyCache) (now₁ now₂ : Int) (cache : Bool)
    (hmiss : ¬ (cache = true ∧ kc.redisKeysLastUpdate > now₁ + 60 * Second))
    (hfuel : 11 ≤ fuel) :
    ∃ r, RedisAllKeys fuel client st kc now₁ now₂ cache = some r
      ∧ r.calls.length ≤ 10
      ∧ (∀ c ∈ r.calls, c.pattern = "*" ∧ c.count = 100)
      ∧ r.calls = chainCalls client st "*" r.calls.length
      ∧ ((∀ i, i < r.calls.length → (chainReply client st "*" i).keys.length ≤ 100) →
          r.keys.length ≤ 1000) := by
  obtain ⟨s, m, hm, _, hs, hcalls, hres⟩ := scan_of_ten_pages client st fuel hfuel
  have hlen : s.calls.length = m := by rw [hcalls, length_chainCalls]
  refine ⟨_, RedisAllKeys_miss fuel client st kc now₁ now₂ cache s hmiss hs, ?_, ?_, ?_, ?_⟩
  · by_cases h : s.err ≠ none <;> simp [h, hcalls, length_chainCalls, hm]
  · intro c hc
    have hc' : c ∈ s.calls := by
      by_cases h : s.err ≠ none <;> simpa [h] using hc
    rw [hcalls] at hc'
    exact mem_chainCalls client st "*" m c hc'
  · by_cases h : s.err ≠ none
    · simp only [if_pos h, hlen]
      exact hcalls
    · simp only [if_neg h, hlen]
      exact hcalls
  · rcases hres with ⟨herr, hkeys⟩ | ⟨_, herr, _, _⟩
    · have hn : ¬ s.err ≠ none := fun h => h herr
      simp only [if_neg hn, hlen, hkeys]
      intro hpage
      have hle := length_chainKeys_le client st "*" 100 m hpage
      omega
    · simp only [if_pos herr]
      intro _
      simp

/-- C17 (amended) on the three-page server. -/
theorem C17_at_most_ten_scans_of_hundred_witness :
    ∃ r, RedisAllKeys 11 scripted threePages initialCache 0 0 false = some r
      ∧ r.calls.length ≤ 10
      ∧ (∀ c ∈ r.calls, c.pattern = "*" ∧ c.count = 100)
      ∧ r.calls = chainCalls scripted threePages "*" r.calls.length
      ∧ ((∀ i, i < r.calls.length → (chainReply scripted threePages "*" i).keys.length ≤ 100) →
          r.keys.length ≤ 1000) :=
  C17_at_most_ten_scans_of_hundred 11 scripted threePages initialCache 0 0 false
    (by decide) (by decide)

/-- A server whose first page has 5 keys and cursor 0, and whose next reply, which
the scan never asks for, would hold 101 keys: the call makes one `Scan` call and
returns the 5 keys. -/
theorem oversized_page_never_requested :
    (RedisAllKeys 11 scripted
        [⟨["a", "b", "c", "d", "e"], 0, none⟩, ⟨List.replicate 101 "k", 0, none⟩]
        initialCache 0 0 false).map (fun r => (r.keys, r.calls.length))
      = some (["a", "b", "c", "d", "e"], 1) := by
  simp [RedisAllKeys, KeysWithLimit, KeysWithLimitLoop, scripted]

/-- C19: `RedisAllKeys` returns, and it updates the cache as a pair. When it is
answered from the cache, the cache is as before. Otherwise it runs its scan: when
the scan succeeds, the stored key list is the list returned and the stored refresh
time is the time of the refresh; when the scan fails, it returns no key list and
the error, and the stored key list and refresh time are what they were before the
call, whatever pages the scan had accumulated. -/
theorem C19_cache_updated_as_a_pair {σ : Type} (fuel : Nat) (client : RedisClient σ)
    (st : σ) (kc : KeyCache) (now₁ now₂ : Int) (cache : Bool) (hfuel : 11 ≤ fuel) :
    ∃ r, RedisAllKeys fuel client st kc now₁ now₂ cache = some r
      ∧ ((cache = true ∧ kc.redisKeysLastUpdate > now₁ + 60 * Second) →
          r.cache = kc ∧ r.keys = kc.redisKeys ∧ r.err = none ∧ r.calls = [])
      ∧ (¬ (cache = true ∧ kc.redisKeysLastUpdate > now₁ + 60 * Second) →
          ∃ s, KeysWithLimit fuel client st "*" 10 = some s
            ∧ r.calls = s.calls
            ∧ (s.err = none →
                r.err = none ∧ r.keys = s.redisKeys ∧ r.cache.redisKeys = r.keys
                  ∧ r.cache.redisKeysLastUpdate = now₂)
            ∧ (s.err ≠ none → r.keys = [] ∧ r.err = s.err ∧ r.cache = kc)) := by
  by_cases hhit : cache = true ∧ kc.redisKeysLastUpdate > now₁ + 60 * Second
  · refine ⟨⟨kc.redisKeys, none, kc, st, []⟩, ?_, fun _ => ⟨rfl, rfl, rfl, rfl⟩,
      fun h => absurd hhit h⟩
    unfold RedisAllKeys
    rw [if_pos hhit]
  · obtain ⟨s, m, _, _, hs, _, _⟩ := scan_of_ten_pages client st fuel hfuel
    refine ⟨_, RedisAllKeys_miss fuel client st kc now₁ now₂ cache s hhit hs,
      fun h => absurd h hhit, fun _ => ⟨s, hs, ?_, ?_, ?_⟩⟩
    · by_cases h : s.err ≠ none <;> simp [h]
    · intro h
      simp [h]
    · intro h
      simp [h]

/-- C19 on the server that fails on page 2: the scan had accumulated page 1, and the
cache keeps its old key list and refresh time. -/
theorem C19_cache_updated_as_a_pair_witness :
    ∃ r, RedisAllKeys 11 scripted failsOnPageTwo ⟨["old"], 5 * Second⟩
          (1000 * Second) (1001 * Second) false = some r
      ∧ r.keys = [] ∧ r.err = some "i/o timeout" ∧ r.cache = ⟨["old"], 5 * Second⟩ := by
  obtain ⟨r, hr, _, hmiss⟩ := C19_cache_updated_as_a_pair 11 scripted failsOnPageTwo
    ⟨["old"], 5 * Second⟩ (1000 * Second) (1001 * Second) false (by decide)
  obtain ⟨s, hs, _, _, hfail⟩ := hmiss (by decide)
  have hs' : s.err = some "i/o timeout" := by
    have e : (KeysWithLimit 11 scripted failsOnPageTwo "*" 10).map KeysResult.view
        = some (["a", "b"], some "i/o timeout", [⟨0, "*", 100⟩, ⟨17, "*", 100⟩]) := by decide
    rw [hs] at e
    simp only [Option.map_some', Option.some.injEq, KeysResult.view, Prod.mk.injEq] at e
    exact e.2.1
  obtain ⟨h1, h2, h3⟩ := hfail (by rw [hs']; simp)
  exact ⟨r, hr, h1, h2.trans hs', h3⟩

/-- C20: when the stored refresh time is not later than the current time, the
freshness check of `RedisAllKeys` fails, so the call with `cache = true` is the
call with `cache = false`: it returns after a scan of at least one and at most ten
`Scan` calls, never from the cache; and under a clock that does not go back the
stored refresh time is again not later than the current time afterwards. The zero
timestamp the program starts with is not later than any time from 1970 on. -/
theorem C20_cache_path_unreachable {σ : Type} (fuel : Nat) (client : RedisClient σ)
    (st : σ) (kc : KeyCache) (now₁ now₂ : Int)
    (hpast : kc.redisKeysLastUpdate ≤ now₁) (hfuel : 11 ≤ fuel) :
    RedisAllKeys fuel client st kc now₁ now₂ true
        = RedisAllKeys fuel client st kc now₁ now₂ false
      ∧ (∃ r s, RedisAllKeys fuel client st kc now₁ now₂ true = some r
          ∧ KeysWithLimit fuel client st "*" 10 = some s
          ∧ r.calls = s.calls ∧ 0 < r.calls.length ∧ r.calls.length ≤ 10
          ∧ (now₁ ≤ now₂ → r.cache.redisKeysLastUpdate ≤ now₂))
      ∧ (∀ now : Int, 0 ≤ now → initialCache.redisKeysLastUpdate ≤ now) := by
  have hsec : (0 : Int) ≤ 60 * Second := by decide
  have hmiss : ∀ c : Bool, ¬ (c = true ∧ kc.redisKeysLastUpdate > now₁ + 60 * Second) := by
    intro c h
    have := h.2
    omega
  obtain ⟨s, m, hm, hm0, hs, hcalls, _⟩ := scan_of_ten_pages client st fuel hfuel
  have htrue := RedisAllKeys_miss fuel client st kc now₁ now₂ true s (hmiss true) hs
  have hfalse := RedisAllKeys_miss fuel client st kc now₁ now₂ false s (hmiss false) hs
  have hzero : initialCache.redisKeysLastUpdate ≤ 0 := by decide
  refine ⟨htrue.trans hfalse.symm, ⟨_, s, htrue, hs, ?_, ?_, ?_, ?_⟩,
    fun now hnow => le_trans hzero hnow⟩
  · by_cases h : s.err ≠ none <;> simp [h]
  · by_cases h : s.err ≠ none <;> simp [h, hcalls, length_chainCalls, hm0]
  · by_cases h : s.err ≠ none <;> simp [h, hcalls, length_chainCalls, hm]
  · intro hclock
    by_cases h : s.err ≠ none
    · rw [if_pos h]
      show kc.redisKeysLastUpdate ≤ now₂
      omega
    · simp [h]

/-- C20 at the start of the program, with the clock at 1000 s. -/
theorem C20_cache_path_unreachable_witness :
    RedisAllKeys 11 scripted threePages initialCache (1000 * Second) (1001 * Second) true
        = RedisAllKeys 11 scripted threePages initialCache (1000 * Second) (1001 * Second) false
      ∧ (∃ r s, RedisAllKeys 11 scripted threePages initialCache (1000 * Second)
              (1001 * Second) true = some r
          ∧ KeysWithLimit 11 scripted threePages "*" 10 = some s
          ∧ r.calls = s.calls ∧ 0 < r.calls.length ∧ r.calls.length ≤ 10
          ∧ (1000 * Second ≤ 1001 * Second → r.cache.redisKeysLastUpdate ≤ 1001 * Second))
      ∧ (∀ now : Int, 0 ≤ now → initialCache.redisKeysLastUpdate ≤ now) :=
  C20_cache_path_unreachable 11 scripted threePages initialCache (1000 * Second)
    (1001 * Second) (by decide) (by decide)

/-! ## `main` -/

/-- The error `parseRedisURL` returns does not depend on the configuration it is
given. -/
theorem parseRedisURLParsed_err_indep (u : URL) (c c' : Config) :
    (parseRedisURLParsed u c).2 = (parseRedisURLParsed u c').2 := by
  have hne : ("redis" : String) ≠ "rediss" := by decide
  unfold parseRedisURLParsed parseRedisURLTail
  by_cases h₁ : u.Scheme = "redis" <;>
  by_cases h₂ : u.Scheme = "rediss" <;>
  by_cases hh : u.Hostname ≠ "" <;>
  by_cases hp : u.Port ≠ "" <;>
  by_cases hpw : (userPassword u.User).2 = true <;>
  by_cases hpath : u.Path ≠ "" ∧ u.Path ≠ "/" <;>
  by_cases hcl : u.Query.Get "cluster" = "true" <;>
  cases hport : Atoi u.Port <;>
  cases hdb : Atoi (trimSlash u.Path) <;>
  simp [h₁, h₂, hne, hh, hp, hpw, hpath, hcl, hport, hdb]

/-- A successful `parseRedisURL` leaves the configuration it was given with every
field the URL carries replaced. -/
theorem parseRedisURLParsed_eq_overlay (u : URL) (c : Config)
    (hok : (parseRedisURLParsed u c).2 = none) :
    (parseRedisURLParsed u c).1 = overlayURL u c := by
  obtain ⟨hs, hp0, hp1, hpw, hd1, hd0, hcl⟩ := parseRedisURLParsed_success u c hok
  obtain ⟨htls, hhost, f3, f4, f5, f6, f7, _⟩ := parseRedisURLParsed_frame u c hs
  have hHost : (parseRedisURLParsed u c).1.Host = (urlHost u).getD c.Host := by
    rw [hhost]
    unfold urlHost
    by_cases h : u.Hostname ≠ "" <;> simp [h]
  have hPort : (parseRedisURLParsed u c).1.Port = (urlPort u).getD c.Port := by
    unfold urlPort
    by_cases h : u.Port ≠ ""
    · rw [if_pos h, hp1 h]
      rfl
    · rw [if_neg h]
      exact hp0 (by simpa using h)
  have hPw : (parseRedisURLParsed u c).1.Password = (urlPassword u).getD c.Password := by
    rw [hpw]
    unfold urlPassword
    by_cases h : (userPassword u.User).2 = true <;> simp [h]
  have hDB : (parseRedisURLParsed u c).1.DB = (urlDB u).getD c.DB := by
    unfold urlDB
    by_cases h : u.Path ≠ "" ∧ u.Path ≠ "/"
    · rw [if_pos h, hd1 h]
      rfl
    · rw [if_neg h]
      exact hd0 h
  have hCl : (parseRedisURLParsed u c).1.Cluster = (urlCluster u).getD c.Cluster := by
    rw [hcl]
    unfold urlCluster
    by_cases h : u.Query.Get "cluster" = "true" <;> simp [h]
  cases hr : (parseRedisURLParsed u c).1 with
  | mk a1 a2 a3 a4 a5 a6 a7 a8 a9 a10 a11 =>
    rw [hr] at hHost hPort hPw hDB hCl htls f3 f4 f5 f6 f7
    simp only at hHost hPort hPw hDB hCl htls f3 f4 f5 f6 f7
    unfold overlayURL
    rw [hHost, hPort, hPw, hDB, hCl, htls, f3, f4, f5, f6, f7]

/-- The call `parseRedisURL(s, conf)` for a URL that parses and is accepted. -/
theorem parseRedisURL_eq_overlay (urlParse : String → Except GoError URL) (s : String)
    (u : URL) (c : Config) (hp : urlParse s = .ok u)
    (hok : (parseRedisURLParsed u defaultConf).2 = none) :
    parseRedisURL urlParse s c = (overlayURL u c, none) := by
  have h2 : (parseRedisURLParsed u c).2 = none :=
    (parseRedisURLParsed_err_indep u c defaultConf).trans hok
  unfold parseRedisURL
  simp only [hp]
  exact Prod.ext (parseRedisURLParsed_eq_overlay u c h2) h2

/-- C11: whenever the URLs that are present parse successfully (`ue` and `uo` are
the parsed environment URL and the parsed URL of `-url`, `none` for one that is
absent), the configuration `main` resolves is, field by field, the one given by the
precedence defaults < environment URL < flags < override URL, where a flag counts
only if the user supplied it and a URL only for the components it carries. When
both URLs are present this is `parseRedisURL` of the override URL applied to the
flags applied to `parseRedisURL` of the environment URL applied to the defaults.
Hence the host, port, password and db of the override URL and its TLS setting are
the final ones whatever the flags and the environment URL say, and a supplied flag
decides a field the override URL does not carry, whatever the environment URL
says. -/
theorem C11_main_follows_precedence (urlParse : String → Except GoError URL) (env : String)
    (f : Flags) (ue uo : Option URL)
    (henv : (env = "" ∧ ue = none)
      ∨ (env ≠ "" ∧ ∃ u, ue = some u ∧ urlParse env = .ok u
          ∧ (parseRedisURLParsed u defaultConf).2 = none))
    (hurl : (f.url = "" ∧ uo = none)
      ∨ (f.url ≠ "" ∧ ∃ u, uo = some u ∧ urlParse f.url = .ok u
          ∧ (parseRedisURLParsed u defaultConf).2 = none)) :
    main urlParse env f = .ok (resolvedBySpec ue uo f)
      ∧ (env ≠ "" → f.url ≠ "" →
          resolvedBySpec ue uo f
            = (parseRedisURL urlParse f.url
                (applyFlags (parseRedisURL urlParse env defaultConf).1 f)).1)
      ∧ (∀ x, uo.bind urlHost = some x → (resolvedBySpec ue uo f).Host = x)
      ∧ (∀ x, uo.bind urlPort = some x → (resolvedBySpec ue uo f).Port = x)
      ∧ (∀ x, uo.bind urlPassword = some x → (resolvedBySpec ue uo f).Password = x)
      ∧ (∀ x, uo.bind urlDB = some x → (resolvedBySpec ue uo f).DB = x)
      ∧ (∀ u, uo = some u → (resolvedBySpec ue uo f).TLS = decide (u.Scheme = "rediss"))
      ∧ (uo.bind urlHost = none → ∀ x, f.h = some x → (resolvedBySpec ue uo f).Host = x)
      ∧ (uo.bind urlPort = none → ∀ x, f.p = some x → (resolvedBySpec ue uo f).Port = x)
      ∧ (uo.bind urlPassword = none → ∀ x, f.a = some x →
          (resolvedBySpec ue uo f).Password = x)
      ∧ (uo.bind urlDB = none → ∀ x, f.n = some x → (resolvedBySpec ue uo f).DB = x)
      ∧ (uo.bind urlCluster = none → ∀ x, f.c = some x → (resolvedBySpec ue uo f).Cluster = x)
      ∧ (uo = none → ∀ x, f.tls = some x → (resolvedBySpec ue uo f).TLS = x) := by
  have hspec : ∀ u1 u2 : URL,
      overlayURL u2 (applyFlags (overlayURL u1 defaultConf) f)
        = resolvedBySpec (some u1) (some u2) f := fun _ _ => rfl
  refine ⟨?_, ?_, ?_, ?_, ?_, ?_, ?_, ?_, ?_, ?_, ?_, ?_, ?_⟩
  · rcases henv with ⟨he, rfl⟩ | ⟨he, u1, rfl, hp1, hok1⟩ <;>
    rcases hurl with ⟨hu, rfl⟩ | ⟨hu, u2, rfl, hp2, hok2⟩
    · unfold main
      simp only [he, hu, ne_eq, not_true_eq_false, if_false]
      rfl
    · unfold main
      simp only [he, hu, ne_eq, not_true_eq_false, not_false_eq_true, if_false, if_true,
        parseRedisURL_eq_overlay urlParse f.url u2 _ hp2 hok2]
      rfl
    · unfold main
      simp only [he, hu, ne_eq, not_true_eq_false, not_false_eq_true, if_false, if_true,
        parseRedisURL_eq_overlay urlParse env u1 _ hp1 hok1]
      rfl
    · unfold main
      simp only [he, hu, ne_eq, not_false_eq_true, if_true,
        parseRedisURL_eq_overlay urlParse env u1 _ hp1 hok1,
        parseRedisURL_eq_overlay urlParse f.url u2 _ hp2 hok2]
      rfl
  · intro he hu
    rcases henv with ⟨he', _⟩ | ⟨_, u1, rfl, hp1, hok1⟩
    · exact absurd he' he
    · rcases hurl with ⟨hu', _⟩ | ⟨_, u2, rfl, hp2, hok2⟩
      · exact absurd hu' hu
      · rw [parseRedisURL_eq_overlay urlParse env u1 _ hp1 hok1,
          parseRedisURL_eq_overlay urlParse f.url u2 _ hp2 hok2]
        exact (hspec u1 u2).symm
  · intro x hx
    simp [resolvedBySpec, precedence, hx]
  · intro x hx
    simp [resolvedBySpec, precedence, hx]
  · intro x hx
    simp [resolvedBySpec, precedence, hx]
  · intro x hx
    simp [resolvedBySpec, precedence, hx]
  · intro u hu
    simp [resolvedBySpec, precedence, hu, urlTLS]
  · intro hx x hf
    simp [resolvedBySpec, precedence, hx, hf]
  · intro hx x hf
    simp [resolvedBySpec, precedence, hx, hf]
  · intro hx x hf
    simp [resolvedBySpec, precedence, hx, hf]
  · intro hx x hf
    simp [resolvedBySpec, precedence, hx, hf]
  · intro hx x hf
    simp [resolvedBySpec, precedence, hx, hf]
  · intro hx x hf
    simp [resolvedBySpec, precedence, hx, hf]

/-- C11 with the environment URL `redis://host:1234/7?cluster=true`, the flags
`-h flaghost -p 7000 -n 3` and the override URL `rediss://admin:s3cret@[::1]:6380`:
host and port are the override URL's, the db is the flag's, cluster mode is the
environment URL's. -/
theorem C11_main_follows_precedence_witness :
    main urlParseExamples "redis://host:1234/7?cluster=true" exampleFlags
        = .ok (resolvedBySpec (some exampleURL) (some secureURL) exampleFlags)
      ∧ (resolvedBySpec (some exampleURL) (some secureURL) exampleFlags).Host = "::1"
      ∧ (resolvedBySpec (some exampleURL) (some secureURL) exampleFlags).Port = 6380
      ∧ (resolvedBySpec (some exampleURL) (some secureURL) exampleFlags).DB = 3
      ∧ (resolvedBySpec (some exampleURL) (some secureURL) exampleFlags).Cluster = true := by
  have h := C11_main_follows_precedence urlParseExamples "redis://host:1234/7?cluster=true"
    exampleFlags (some exampleURL) (some secureURL)
    (Or.inr ⟨by decide, exampleURL, rfl, rfl, by decide⟩)
    (Or.inr ⟨by decide, secureURL, rfl, rfl, by decide⟩)
  obtain ⟨hmain, _, hhost, hport, _, _, _, _, _, _, hdb, _⟩ := h
  exact ⟨hmain, hhost "::1" (by decide), hport 6380 (by decide),
    hdb (by decide) 3 rfl, by decide⟩

/-- The resolution of the example, evaluated: host, port, password and TLS are the
override URL's; db and cluster mode, which the override URL does not mention, are
the environment URL's. -/
theorem main_example_eval :
    (main urlParseExamples "redis://host:1234/7?cluster=true"
        { noFlags with h := some "flaghost", url := "rediss://admin:s3cret@[::1]:6380" }).toOption
      = some { Host := "::1", Port := 6380, Password := "s3cret", DB := 7, Cluster := true,
               Debug := false, TLS := true, TLSCert := "", TLSKey := "", TLSCACert := "",
               TLSVerify := true } := by
  decide

/-! ## `createTLSConfig` and `NewRedisClient` -/

/-- C12 (as stated, refuted): with TLS enabled, a certificate path and no key path,
and no file readable at all, `createTLSConfig` succeeds, and `NewRedisClient`
builds the client with a TLS configuration and sends no diagnostic. -/
theorem C12_lone_certificate_path_is_ignored :
    (createTLSConfig noFiles { defaultConf with TLS := true, TLSCert := "client.crt" }).toOption
        = some ⟨false, [], none⟩
      ∧ NewRedisClient noFiles { defaultConf with TLS := true, TLSCert := "client.crt" }
        = (.single ⟨"127.0.0.1:6379", 0, "", 3 * Second, 2 * Second, some ⟨false, [], none⟩⟩
            false, []) := by
  decide

/-- C12 (amended): when exactly one of the client certificate path and the client
key path is given, `createTLSConfig` does not load a client certificate and does
what it does when neither is given; so with no CA path it succeeds with a
configuration that has no client certificate, and `NewRedisClient`, with TLS
enabled, builds the client with that TLS configuration and sends no diagnostic. -/
theorem C12_one_path_alone_loads_nothing (fs : CertStore) (conf : Config)
    (hTLS : conf.TLS = true)
    (hone : (conf.TLSCert ≠ "" ∧ conf.TLSKey = "") ∨ (conf.TLSCert = "" ∧ conf.TLSKey ≠ "")) :
    createTLSConfig fs conf = createTLSConfig fs { conf with TLSCert := "", TLSKey := "" }
      ∧ (conf.TLSCACert = "" →
          createTLSConfig fs conf = .ok ⟨!conf.TLSVerify, [], none⟩
            ∧ (NewRedisClient fs conf).1.tlsConfig = some ⟨!conf.TLSVerify, [], none⟩
            ∧ (NewRedisClient fs conf).2 = []) := by
  have hpair : ¬ (conf.TLSCert ≠ "" ∧ conf.TLSKey ≠ "") := by
    rcases hone with ⟨_, h⟩ | ⟨h, _⟩
    · exact fun hh => hh.2 h
    · exact fun hh => hh.1 h
  have hcreate : createTLSConfig fs conf
      = createTLSConfig fs { conf with TLSCert := "", TLSKey := "" } := by
    unfold createTLSConfig
    simp only [if_neg hpair]
    simp
  refine ⟨hcreate, fun hca => ?_⟩
  have hok : createTLSConfig fs conf = .ok ⟨!conf.TLSVerify, [], none⟩ := by
    unfold createTLSConfig
    simp only [if_neg hpair]
    simp [hca]
  refine ⟨hok, ?_, ?_⟩
  · unfold NewRedisClient newClientTLS
    by_cases hc : conf.Cluster = true <;> simp [hc, hTLS, hok, Client.tlsConfig]
  · unfold NewRedisClient newClientTLS
    by_cases hc : conf.Cluster = true <;> simp [hc, hTLS, hok]

/-- C12 (amended) with a certificate path and no key path. -/
theorem C12_one_path_alone_loads_nothing_witness :
    createTLSConfig noFiles { defaultConf with TLS := true, TLSCert := "client.crt" }
        = createTLSConfig noFiles
            { { defaultConf with TLS := true, TLSCert := "client.crt" } with
              TLSCert := "", TLSKey := "" }
      ∧ (({ defaultConf with TLS := true, TLSCert := "client.crt" } : Config).TLSCACert = "" →
          createTLSConfig noFiles { defaultConf with TLS := true, TLSCert := "client.crt" }
              = .ok ⟨!({ defaultConf with TLS := true, TLSCert := "client.crt" } : Config).TLSVerify,
                  [], none⟩
            ∧ (NewRedisClient noFiles
                { defaultConf with TLS := true, TLSCert := "client.crt" }).1.tlsConfig
              = some ⟨!({ defaultConf with TLS := true, TLSCert := "client.crt" } : Config).TLSVerify,
                  [], none⟩
            ∧ (NewRedisClient noFiles
                { defaultConf with TLS := true, TLSCert := "client.crt" }).2 = []) :=
  C12_one_path_alone_loads_nothing noFiles
    { defaultConf with TLS := true, TLSCert := "client.crt" } (by decide) (Or.inl (by decide))

/-- When `createTLSConfig` fails: the pair of paths is given and does not load, or
the CA path is given and the file cannot be read or yields no certificate. -/
theorem createTLSConfig_error_iff (fs : CertStore) (conf : Config) :
    (∃ e, createTLSConfig fs conf = .error e) ↔
      ((conf.TLSCert ≠ "" ∧ conf.TLSKey ≠ ""
          ∧ ∃ e, fs.LoadX509KeyPair conf.TLSCert conf.TLSKey = .error e)
        ∨ (conf.TLSCACert ≠ "" ∧ ∃ e, fs.ReadFile conf.TLSCACert = .error e)
        ∨ (conf.TLSCACert ≠ "" ∧ ∃ pem, fs.ReadFile conf.TLSCACert = .ok pem
            ∧ fs.AppendCertsFromPEM pem = [])) := by
  unfold createTLSConfig
  by_cases hpair : conf.TLSCert ≠ "" ∧ conf.TLSKey ≠ "" <;>
  by_cases hca : conf.TLSCACert ≠ "" <;>
  cases hload : fs.LoadX509KeyPair conf.TLSCert conf.TLSKey <;>
  cases hread : fs.ReadFile conf.TLSCACert <;>
  simp [hpair, hca, hload, hread, List.isEmpty_iff] <;>
  split <;>
  simp_all

/-- C13: when TLS is enabled and `createTLSConfig` returns an error, `NewRedisClient`
still returns a client: the one it returns with TLS disabled, with no TLS
configuration; and it sends exactly one message, the TLS diagnostic. In every case
the client has the address, the password and, unless it is a cluster client, the
db of the configuration. When TLS is disabled or `createTLSConfig` succeeds it
sends no message. -/
theorem C13_TLS_failure_degrades_connection (fs : CertStore) (conf : Config) :
    (conf.TLS = true → ∀ e, createTLSConfig fs conf = .error e →
        (NewRedisClient fs conf).2 = [⟨.ColorRed, "TLS configuration error: " ++ e⟩]
          ∧ (NewRedisClient fs conf).1.tlsConfig = none
          ∧ (NewRedisClient fs conf).1 = (NewRedisClient fs { conf with TLS := false }).1)
      ∧ (NewRedisClient fs conf).1.addrs = [conf.Host ++ ":" ++ fmtInt conf.Port]
      ∧ (NewRedisClient fs conf).1.password = conf.Password
      ∧ (NewRedisClient fs conf).1.db = (if conf.Cluster = true then none else some conf.DB)
      ∧ (conf.TLS = false →
          (NewRedisClient fs conf).2 = [] ∧ (NewRedisClient fs conf).1.tlsConfig = none)
      ∧ (conf.TLS = true → ∀ cfg, createTLSConfig fs conf = .ok cfg →
          (NewRedisClient fs conf).2 = [] ∧ (NewRedisClient fs conf).1.tlsConfig = some cfg) := by
  refine ⟨fun hTLS e he => ?_, ?_, ?_, ?_, fun hTLS => ?_, fun hTLS cfg hcfg => ?_⟩
  · unfold NewRedisClient newClientTLS
    by_cases hc : conf.Cluster = true <;> simp [hc, hTLS, he, Client.tlsConfig]
  · unfold NewRedisClient
    by_cases hc : conf.Cluster = true <;> simp [hc, Client.addrs]
  · unfold NewRedisClient
    by_cases hc : conf.Cluster = true <;> simp [hc, Client.password]
  · unfold NewRedisClient
    by_cases hc : conf.Cluster = true <;> simp [hc, Client.db]
  · unfold NewRedisClient newClientTLS
    by_cases hc : conf.Cluster = true <;> simp [hc, hTLS, Client.tlsConfig]
  · unfold NewRedisClient newClientTLS
    by_cases hc : conf.Cluster = true <;> simp [hc, hTLS, hcfg, Client.tlsConfig]

/-- C13 with both paths given and no file readable. -/
theorem C13_TLS_failure_degrades_connection_witness :
    (NewRedisClient noFiles
        { defaultConf with TLS := true, TLSCert := "client.crt", TLSKey := "client.key" }).2
        = [⟨.ColorRed, "TLS configuration error: "
            ++ "failed to load client certificate: open client.crt: no such file or directory"⟩]
      ∧ (NewRedisClient noFiles
          { defaultConf with TLS := true, TLSCert := "client.crt", TLSKey := "client.key" }
          ).1.tlsConfig = none :=
  have h := (C13_TLS_failure_degrades_connection noFiles
    { defaultConf with TLS := true, TLSCert := "client.crt", TLSKey := "client.key" }).1
    (by decide)
    "failed to load client certificate: open client.crt: no such file or directory" rfl
  ⟨h.1, h.2.1⟩

/-- C18 (the code at the failing input): with `Debug` and `Cluster` both set,
`NewRedisClient` returns the cluster client as it is built, and a command it
executes sends no message; with `Debug` set and `Cluster` not, the client sends one
message with the command's text and returns the error of the normal execution. -/
theorem C18_cluster_client_is_not_traced :
    NewRedisClient noFiles { defaultConf with Cluster := true, Debug := true }
        = (.cluster ⟨["127.0.0.1:6379"], "", none⟩, [])
      ∧ (NewRedisClient noFiles { defaultConf with Cluster := true, Debug := true }).1.Process
          (fun _ => some "MOVED 3999 127.0.0.1:6381") "get foo"
        = ([], some "MOVED 3999 127.0.0.1:6381")
      ∧ (NewRedisClient noFiles { defaultConf with Debug := true }).1.Process
          (fun _ => some "i/o timeout") "get foo"
        = ([⟨.ColorOrange, "redis: <get foo>"⟩], some "i/o timeout") := by
  decide

end RedisTui
